import Mathlib

/-!
# driftnet: connection table, sequence mapper and packet processor

A shallow embedding of the connection-tracking core of `src/driftnet.c`:
`alloc_connection`, `find_connection`, `sweep_connections`,
`get_link_level_hdr_length`, `get_frame_link_level_hdr_length` and
`process_packet`.

Conventions of the embedding.

* The global `slots` array is a `List (Option connection)`; `slotsalloc` is its
  length; a `NULL` slot is `none`. A pointer `connection *C` into the array is
  the slot index, and `*C` is the content of that slot.
* `unsigned int` values are natural numbers, reduced modulo `2 ^ 32` wherever
  the C arithmetic can wrap; `int` and `time_t` values are integers.
* The calls `process_packet` and `sweep_connections` make to
  `connection_push`, `connection_extract_media` and `connection_delete` are
  recorded, in order, in a list of `Event`s.
* `connection_push` and `connection_extract_media` live in files that are not
  part of the sources at hand; they are parameters (`Collab`).
-/

namespace Driftnet

/-! ## Constants -/

/-- The constant `#define SNAPLEN 262144`. -/
def SNAPLEN : Nat := 262144

/-- The constant `#define WRAPLEN 262144`, the out-of-order packet margin. -/
def WRAPLEN : Nat := 262144

/-- The constant `#define TIMEOUT 5`. -/
def TIMEOUT : Int := 5

/-- The constant `#define MAXCONNECTIONDATA (8 * 1024 * 1024)`. -/
def MAXCONNECTIONDATA : Nat := 8 * 1024 * 1024

/-- The modulus of `unsigned int` arithmetic. -/
def U32 : Nat := 2 ^ 32

/-- The flag `TH_FIN` of `<netinet/tcp.h>`. -/
def TH_FIN : Nat := 0x01

/-- The flag `TH_RST` of `<netinet/tcp.h>`. -/
def TH_RST : Nat := 0x04

/-! ## Data model -/

/-- Modelled from the spec: the block type of `driftnet.h`, which is not among
the sources. A block is a received byte range, given by its offset and length
in the logical stream. -/
structure datablock where
  off : Nat
  len : Nat
deriving DecidableEq, Repr

/-- Modelled from the spec: `struct _connection` of `driftnet.h`, which is not
among the sources. The fields are the ones `driftnet.c` reads and writes:
`src`, `dst` (compared with `memcmp` over the four address bytes, here the
number those bytes spell), `sport`, `dport` (compared with the `short int`
arguments of `find_connection`), `isn`, `len`, `fin`, `last` and `blocks`
(a `NULL`-terminated chain, here a list). -/
structure connection where
  src : Nat
  dst : Nat
  sport : Int
  dport : Int
  isn : Nat
  len : Nat
  fin : Bool
  last : Int
  blocks : List datablock
deriving DecidableEq, Repr

/-- The connection table: the `slots` array, `slotsalloc` being its length. -/
abbrev Slots := List (Option connection)

/-- A call made to one of the functions of `connection.c` and `media.c`, with
the record it is made on as it is at the time of the call. -/
inductive Event where
  | push (c : connection) (data : List Nat) (off : Nat) (len : Nat)
  | extract (c : connection)
  | delete (c : connection)
deriving DecidableEq, Repr

/-- The collaborators of the core whose code is not among the sources:
`connection_push (c, data, off, len)` and `connection_extract_media (c, type)`.
Both update the record they are given in place; `push` also receives the
clock value it may read. -/
structure Collab where
  push : Int → connection → List Nat → Nat → Nat → connection
  extract : connection → connection

/-- Modelled from the spec: `connection_new` of `connection.c`, which is not
among the sources. A fresh record carries the 4-tuple it is created for, an
empty block store, length zero, no FIN, and the creation time as its last
activity; `process_packet` sets `isn` right after the call. -/
def connection_new (t : Int) (src dst : Nat) (sport dport : Int) : connection :=
  { src := src, dst := dst, sport := sport, dport := dport,
    isn := 0, len := 0, fin := false, last := t, blocks := [] }

/-- Modelled from the spec: a reference `connection_push`, used to instantiate
`Collab`: the bytes become a new block, kept in offset order, `len` advances
to the end of the block if that is larger, and the last-activity time is
set. -/
def connection_push_ref (t : Int) (c : connection) (_data : List Nat)
    (off len : Nat) : connection :=
  { c with
    len := if c.len < off + len then off + len else c.len
    last := t
    blocks := (c.blocks.takeWhile (fun b => b.off < off)) ++
      ({ off := off, len := len } :: c.blocks.dropWhile (fun b => b.off < off)) }

/-- A reference instance of the collaborators: the reference push and an
extractor that finds nothing. -/
def refCollab : Collab :=
  { push := connection_push_ref, extract := fun c => c }

/-! ## The connection table -/

/-- The test of `find_connection` on one slot: the slot is live and its
`sport`, `dport`, `src` and `dst` equal the arguments. -/
def slot_matches (src dst : Nat) (sport dport : Int) : Option connection → Bool
  | none => false
  | some c => decide (c.sport = sport) && decide (c.dport = dport)
      && decide (c.src = src) && decide (c.dst = dst)

/-- The function `find_connection`: scan the slots from the first; return the first slot
that matches (its index and its content), or `none` for `NULL`. -/
def find_connection (src dst : Nat) (sport dport : Int) :
    Slots → Option (Nat × connection)
  | [] => none
  | none :: rest =>
      (find_connection src dst sport dport rest).map (fun p => (p.1 + 1, p.2))
  | some c :: rest =>
      if slot_matches src dst sport dport (some c) then some (0, c)
      else (find_connection src dst sport dport rest).map (fun p => (p.1 + 1, p.2))

/-- The first loop of `alloc_connection`: the index of the first `NULL` slot. -/
def first_free : Slots → Option Nat
  | [] => none
  | none :: _ => some 0
  | some _ :: rest => (first_free rest).map (fun i => i + 1)

/-- The function `alloc_connection`: the first free slot; when there is none the array is
reallocated to twice its size, the new half is zeroed, and the first new slot
is returned. The result is the array and the index of the returned slot. -/
def alloc_connection (slots : Slots) : Slots × Nat :=
  match first_free slots with
  | some i => (slots, i)
  | none => (slots ++ List.replicate slots.length none, slots.length)

/-- The condition of `sweep_connections` on a live record:
`(now - c->last) > TIMEOUT || (c->fin && (!c->blocks || !c->blocks->next))
 || c->len > MAXCONNECTIONDATA`. -/
def sweep_test (now : Int) (c : connection) : Bool :=
  decide (now - c.last > TIMEOUT)
    || (c.fin && (match c.blocks with
                  | [] => true
                  | [_] => true
                  | _ :: _ :: _ => false))
    || decide (c.len > MAXCONNECTIONDATA)

/-- The function `sweep_connections`, `now` being the value `time(NULL)` returns: every live
slot whose record passes `sweep_test` is handed to `connection_extract_media`,
then to `connection_delete`, and set to `NULL`. -/
def sweep_connections (E : Collab) (now : Int) : Slots → Slots × List Event
  | [] => ([], [])
  | none :: rest =>
      let r := sweep_connections E now rest
      (none :: r.1, r.2)
  | some c :: rest =>
      let r := sweep_connections E now rest
      if sweep_test now c then
        (none :: r.1, Event.extract c :: Event.delete (E.extract c) :: r.2)
      else
        (some c :: r.1, r.2)

/-- What one turn of the loop of `sweep_connections` leaves in a slot. -/
def sweep_slot (now : Int) : Option connection → Option connection
  | none => none
  | some c => if sweep_test now c then none else some c

/-! ## Link-level header length -/

/-! The datalink types of `<pcap.h>` that `get_link_level_hdr_length` names. -/

def DLT_NULL : Int := 0
def DLT_EN10MB : Int := 1
def DLT_IEEE802 : Int := 6
def DLT_SLIP : Int := 8
def DLT_PPP : Int := 9
def DLT_FDDI : Int := 10
def DLT_ATM_RFC1483 : Int := 11
def DLT_RAW : Int := 12
def DLT_SLIP_BSDOS : Int := 15
def DLT_PPP_BSDOS : Int := 16
def DLT_ATM_CLIP : Int := 19
def DLT_PPP_SERIAL : Int := 50
def DLT_C_HDLC : Int := 104
def DLT_IEEE802_11 : Int := 105
def DLT_LOOP : Int := 108
def DLT_LINUX_SLL : Int := 113
def DLT_PRISM_HEADER : Int := 119
def DLT_IEEE802_11_RADIO : Int := 127

/-- The function `get_link_level_hdr_length`: the `switch` over the datalink type, every
`#ifdef` taken as defined; `-1` after the `default` label. -/
def get_link_level_hdr_length (type : Int) : Int :=
  if type = DLT_EN10MB then 14
  else if type = DLT_SLIP then 16
  else if type = DLT_SLIP_BSDOS then 24
  else if type = DLT_NULL ∨ type = DLT_LOOP then 4
  else if type = DLT_PPP ∨ type = DLT_C_HDLC ∨ type = DLT_PPP_SERIAL then 4
  else if type = DLT_PPP_BSDOS then 24
  else if type = DLT_FDDI then 21
  else if type = DLT_IEEE802 then 22
  else if type = DLT_ATM_RFC1483 then 8
  else if type = DLT_PRISM_HEADER then 32
  else if type = DLT_RAW then 0
  else if type = DLT_ATM_CLIP then 8
  else if type = DLT_LINUX_SLL then 16
  else if type = DLT_IEEE802_11 then 32
  else if type = DLT_IEEE802_11_RADIO then 0
  else -1

/-- The byte at offset `i` of the buffer `pkt` points to (zero past its end). -/
def byte_at (pkt : List Nat) (i : Nat) : Nat := pkt.getD i 0 % 256

/-- The `uint16_t` read `*(uint16_t*)(pkt + i)` on a little-endian host. -/
def host16 (pkt : List Nat) (i : Nat) : Nat :=
  byte_at pkt i + 256 * byte_at pkt (i + 1)

/-- The value `ntohs` gives for the two bytes at offset `i`. -/
def net16 (pkt : List Nat) (i : Nat) : Nat :=
  256 * byte_at pkt i + byte_at pkt (i + 1)

/-- The value `ntohl` gives for the four bytes at offset `i`; also the number the four bytes
of an address spell. -/
def net32 (pkt : List Nat) (i : Nat) : Nat :=
  16777216 * byte_at pkt i + 65536 * byte_at pkt (i + 1)
    + 256 * byte_at pkt (i + 2) + byte_at pkt (i + 3)

/-- The function `get_frame_link_level_hdr_length`: for radiotap the length read from the
frame, plus 2, plus the 802.11 length; otherwise the static length. -/
def get_frame_link_level_hdr_length (type : Int) (pkt : List Nat) : Int :=
  if type = DLT_IEEE802_11_RADIO then
    (host16 pkt 2 : Int) + 2 + get_link_level_hdr_length DLT_IEEE802_11
  else get_link_level_hdr_length type

/-! ## The sequence mapper -/

/-- Addition of `unsigned int`. -/
def uadd (a b : Nat) : Nat := (a + b) % U32

/-- Subtraction of `unsigned int`. -/
def usub (a b : Nat) : Nat := (a % U32 + U32 - b % U32) % U32

/-- The offset `process_packet` computes for a segment with sequence number
`seq` on a record with initial sequence number `isn`, `delta` being `0`:
`if (offset < (c->isn + delta)) offset = 0xffffffff - (c->isn + delta - offset);
 else offset -= c->isn + delta;`. -/
def segment_offset (isn seq : Nat) : Nat :=
  let delta := 0
  if seq < uadd isn delta then usub 0xffffffff (usub (uadd isn delta) seq)
  else usub seq (uadd isn delta)

/-- The test `offset > c->len + WRAPLEN` of `process_packet`, in
`unsigned int` arithmetic. -/
def out_of_order (c : connection) (offset : Nat) : Bool :=
  decide (offset > uadd c.len WRAPLEN)

/-! ## The packet processor -/

/-- Conversion of an `ntohs` result to the `short int` parameter of
`find_connection`. -/
def to_short (v : Nat) : Int :=
  if v % 65536 < 32768 then ((v % 65536 : Nat) : Int) else ((v % 65536 : Nat) : Int) - 65536

/-- Conversion of an `unsigned int` to `int`. -/
def to_int (v : Nat) : Int :=
  if v % U32 < 2147483648 then ((v % U32 : Nat) : Int) else ((v % U32 : Nat) : Int) - 4294967296

/-- What `process_packet` takes from the IP and TCP headers of a frame: the
addresses `s` and `d`, the ports as passed to `find_connection`, `ntohl` of
the sequence number, the flags, the payload offset `off` and the payload
length `len = hdr->caplen - off`. -/
structure segment where
  s : Nat
  d : Nat
  sport : Int
  dport : Int
  seq : Nat
  flags : Nat
  off : Nat
  len : Int
deriving DecidableEq, Repr

/-- The header reads of `process_packet`, `pkt_offset` being the link-level
header length: `ip_hl` is the low nibble of the first IP byte, the addresses
are bytes 12..19 of the IP header, and the TCP header follows `ip_hl << 2`
bytes after the start of the IP header. -/
def parse_headers (pkt_offset : Nat) (caplen : Nat) (pkt : List Nat) : segment :=
  let ip_hl := byte_at pkt pkt_offset % 16
  let tcp := pkt_offset + ip_hl * 4
  let th_off := byte_at pkt (tcp + 12) / 16
  let off := pkt_offset + ip_hl * 4 + th_off * 4
  { s := net32 pkt (pkt_offset + 12)
    d := net32 pkt (pkt_offset + 16)
    sport := to_short (net16 pkt tcp)
    dport := to_short (net16 pkt (tcp + 2))
    seq := net32 pkt (tcp + 4)
    flags := byte_at pkt (tcp + 13)
    off := off
    len := to_int (usub caplen off) }

/-- The test `tcp.th_flags & flag`. -/
def has_flag (flags flag : Nat) : Bool := decide (flags &&& flag ≠ 0)

/-- The lookup-or-allocate step of `process_packet`: the slot `find_connection`
returns, or else the slot `alloc_connection` returns, filled with a new
record whose `isn` is the sequence number of the segment. The result is the
table, the slot `C` and the record `c = *C`. -/
def locate (t : Int) (g : segment) (slots : Slots) : Slots × Nat × connection :=
  match find_connection g.s g.d g.sport g.dport slots with
  | some (i, c) => (slots, i, c)
  | none =>
      let a := alloc_connection slots
      let c := { connection_new t g.s g.d g.sport g.dport with isn := g.seq }
      (a.1.set a.2 (some c), a.2, c)

/-- The payload step of `process_packet` on the record `c`: nothing when
`len <= 0` or the segment is out of order, otherwise `connection_push`
followed by `connection_extract_media`. -/
def handle_payload (E : Collab) (t : Int) (g : segment) (pkt : List Nat)
    (c : connection) : connection × List Event :=
  if 0 < g.len then
    let offset := segment_offset c.isn g.seq
    if out_of_order c offset then (c, [])
    else
      let data := (pkt.drop g.off).take g.len.toNat
      let c1 := E.push t c data offset g.len.toNat
      (E.extract c1, [Event.push c data offset g.len.toNat, Event.extract c1])
  else (c, [])

/-- The FIN step of `process_packet`: `c->fin = 1` when the flag is set. -/
def handle_fin (g : segment) (c : connection) : connection :=
  if has_flag g.flags TH_FIN then { c with fin := true } else c

/-- The RST branch of `process_packet`: the record is deleted and its slot
cleared, then the record of the reverse tuple, if `find_connection` finds one,
is deleted and its slot cleared. -/
def handle_rst (g : segment) (slots : Slots) (i : Nat) (c : connection) :
    Slots × List Event :=
  let slots1 := slots.set i none
  match find_connection g.d g.s g.dport g.sport slots1 with
  | some (j, cj) => (slots1.set j none, [Event.delete c, Event.delete cj])
  | none => (slots1, [Event.delete c])

/-- The part of `process_packet` between the header reads and the call of
`sweep_connections`, on the segment `g` read from the headers. The third
component tells whether the sweep is reached: it is not when the segment
carries RST, where the function returns early. -/
def process_segment (E : Collab) (t : Int) (g : segment) (pkt : List Nat)
    (slots : Slots) : Slots × List Event × Bool :=
  let l := locate t g slots
  if has_flag g.flags TH_RST then
    let r := handle_rst g l.1 l.2.1 l.2.2
    (r.1, r.2, false)
  else
    let p := handle_payload E t g pkt l.2.2
    (l.1.set l.2.1 (some (handle_fin g p.1)), p.2, true)

/-- The part of `process_packet` that precedes the call of
`sweep_connections`: the function returns at once when the link-level header
length is negative, and otherwise reads the headers at that offset. -/
def process_packet_body (E : Collab) (dlt : Int) (caplen : Nat) (pkt : List Nat)
    (t : Int) (slots : Slots) : Slots × List Event × Bool :=
  let pkt_offset := get_frame_link_level_hdr_length dlt pkt
  if pkt_offset < 0 then (slots, [], false)
  else
    process_segment E t (parse_headers pkt_offset.toNat caplen pkt) pkt slots

/-- The function `process_packet`: `dlt` is `pcap_datalink(pc)`, `caplen` is `hdr->caplen`,
`pkt` the captured bytes, `t` the clock value the record functions read and
`now` the value `time(NULL)` returns in `sweep_connections`. The result is
the table after the call and the calls made on records, in order. -/
def process_packet (E : Collab) (dlt : Int) (caplen : Nat) (pkt : List Nat)
    (t now : Int) (slots : Slots) : Slots × List Event :=
  let b := process_packet_body E dlt caplen pkt t slots
  if b.2.2 then
    let w := sweep_connections E now b.1
    (w.1, b.2.1 ++ w.2)
  else (b.1, b.2.1)

/-- The frame read by `process_packet`, when the link-level header length is
not negative: the segment its headers spell. -/
def frame_segment (dlt : Int) (caplen : Nat) (pkt : List Nat) : Option segment :=
  let pkt_offset := get_frame_link_level_hdr_length dlt pkt
  if pkt_offset < 0 then none
  else some (parse_headers pkt_offset.toNat caplen pkt)

/-- A raw-IP test frame: a 20-byte IP header with addresses `s` and `d`, a
20-byte TCP header with the given ports, sequence number and flags, and the
payload. -/
def mk_frame (s d sport dport seq flags : Nat) (payload : List Nat) : List Nat :=
  [0x45, 0, 0, 0, 0, 0, 0, 0, 64, 6, 0, 0,
   s / 16777216 % 256, s / 65536 % 256, s / 256 % 256, s % 256,
   d / 16777216 % 256, d / 65536 % 256, d / 256 % 256, d % 256,
   sport / 256 % 256, sport % 256, dport / 256 % 256, dport % 256,
   seq / 16777216 % 256, seq / 65536 % 256, seq / 256 % 256, seq % 256,
   0, 0, 0, 0, 0x50, flags % 256, 0, 0, 0, 0, 0, 0] ++ payload

/-! ## Runs and the table invariant -/

/-- Slot `i` of the table is live and holds the record `c`. -/
abbrev live (slots : Slots) (i : Nat) (c : connection) : Prop :=
  slots[i]? = some (some c)

/-- The identity key of a record: `(src, sport, dst, dport)`. -/
def tuple (c : connection) : Nat × Int × Nat × Int :=
  (c.src, c.sport, c.dst, c.dport)

/-- At most one live record per 4-tuple: two live slots whose records have
the same key are the same slot. -/
def one_per_tuple (slots : Slots) : Prop :=
  ∀ i j ci cj, live slots i ci → live slots j cj → tuple ci = tuple cj → i = j

/-- One call of `process_packet` as the capture loop makes it: the datalink
type, `hdr->caplen`, the frame bytes, and the two clock readings. -/
structure capture where
  dlt : Int
  caplen : Nat
  pkt : List Nat
  t : Int
  now : Int

/-- The table after `process_packet` has been called on each capture of the
list in turn. -/
def run (E : Collab) : List capture → Slots → Slots
  | [], slots => slots
  | f :: fs, slots =>
      run E fs (process_packet E f.dlt f.caplen f.pkt f.t f.now slots).1

/-! ## Sample records and tables -/

/-- A record with FIN seen and a single block at offset 50, active at time
100. -/
def ex_fin_block50 : connection :=
  { src := 1, dst := 2, sport := 3, dport := 4, isn := 0, len := 60,
    fin := true, last := 100, blocks := [{ off := 50, len := 10 }] }

/-- A record with no data and no FIN, last active at time 95. -/
def ex_quiet95 : connection :=
  { src := 1, dst := 2, sport := 3, dport := 4, isn := 0, len := 0,
    fin := false, last := 95, blocks := [] }

/-- A record of `8 MiB + 1` bytes in two blocks, without FIN, active at time
100. -/
def ex_big : connection :=
  { src := 1, dst := 2, sport := 3, dport := 4, isn := 0, len := 8388609,
    fin := false, last := 100,
    blocks := [{ off := 0, len := 10 }, { off := 20, len := 8388589 }] }

/-- A record with FIN seen and two blocks, the bytes 50..59 missing, active
at time 100. -/
def ex_fin_gap : connection :=
  { src := 5, dst := 6, sport := 7, dport := 8, isn := 0, len := 100,
    fin := true, last := 100,
    blocks := [{ off := 0, len := 50 }, { off := 60, len := 40 }] }

/-- A record of exactly 8 MiB in two blocks, without FIN, active at time
100. -/
def ex_cap : connection :=
  { src := 1, dst := 2, sport := 3, dport := 4, isn := 0, len := 8388608,
    fin := false, last := 100,
    blocks := [{ off := 0, len := 10 }, { off := 20, len := 8388588 }] }

/-- A record of the flow `10.0.0.1:40000 -> 10.0.0.2:80`, anchored at sequence
number 1000, with three bytes stored. Port 40000 is `-25536` as a
`short int`. -/
def ex_flow : connection :=
  { src := 0x0a000001, dst := 0x0a000002, sport := -25536, dport := 80, isn := 1000,
    len := 3, fin := false, last := 100, blocks := [{ off := 0, len := 3 }] }

/-- A record of the reverse flow `10.0.0.2:80 -> 10.0.0.1:40000`. -/
def ex_back : connection :=
  { src := 0x0a000002, dst := 0x0a000001, sport := 80, dport := -25536, isn := 5000,
    len := 0, fin := false, last := 100, blocks := [] }

/-- A record of an unrelated flow `10.0.0.3:1234 -> 10.0.0.2:80`. -/
def ex_other : connection :=
  { src := 0x0a000003, dst := 0x0a000002, sport := 1234, dport := 80, isn := 7,
    len := 0, fin := false, last := 100, blocks := [] }

/-- A table of four slots holding the three sample flows. -/
def ex_table : Slots := [some ex_flow, none, some ex_back, some ex_other]

/-- A frame of the flow `ex_flow` with sequence number 1003 (offset 3) and
three payload bytes; flags PSH and ACK. Its captured length is 43. -/
def ex_frame_next : List Nat :=
  mk_frame 0x0a000001 0x0a000002 40000 80 1003 0x18 [4, 5, 6]

/-- The segment `ex_frame_next` spells. -/
def ex_seg_next : segment :=
  { s := 0x0a000001, d := 0x0a000002, sport := -25536, dport := 80, seq := 1003,
    flags := 0x18, off := 40, len := 3 }

/-- A frame of the flow `ex_flow` with sequence number
`1000 + 3 + 262144 + 1 = 263148` and two payload bytes; flags FIN, PSH and
ACK. Its captured length is 42. -/
def ex_frame_far : List Nat :=
  mk_frame 0x0a000001 0x0a000002 40000 80 263148 0x19 [7, 8]

/-- The segment `ex_frame_far` spells. -/
def ex_seg_far : segment :=
  { s := 0x0a000001, d := 0x0a000002, sport := -25536, dport := 80, seq := 263148,
    flags := 0x19, off := 40, len := 2 }

/-- A frame of the flow `ex_flow` with RST set and no payload. Its captured
length is 40. -/
def ex_frame_rst : List Nat :=
  mk_frame 0x0a000001 0x0a000002 40000 80 1003 0x04 []

/-- The segment `ex_frame_rst` spells. -/
def ex_seg_rst : segment :=
  { s := 0x0a000001, d := 0x0a000002, sport := -25536, dport := 80, seq := 1003,
    flags := 0x04, off := 40, len := 0 }

/-- Two captures of the sample flow, the second a retransmission of the
first, and a capture of the reverse flow. -/
def ex_captures : List capture :=
  [{ dlt := DLT_RAW, caplen := 43, pkt := ex_frame_next, t := 100, now := 100 },
   { dlt := DLT_RAW, caplen := 43, pkt := ex_frame_next, t := 101, now := 101 },
   { dlt := DLT_RAW, caplen := 41,
     pkt := mk_frame 0x0a000002 0x0a000001 80 40000 5000 0x18 [9], t := 101, now := 101 }]

/-- The datalink types that have a `case` label in the `switch` of
`get_link_level_hdr_length`, in the order of the source. -/
def supported_dlt : List Int :=
  [DLT_EN10MB, DLT_SLIP, DLT_SLIP_BSDOS, DLT_NULL, DLT_LOOP, DLT_PPP, DLT_C_HDLC,
   DLT_PPP_SERIAL, DLT_PPP_BSDOS, DLT_FDDI, DLT_IEEE802, DLT_ATM_RFC1483,
   DLT_PRISM_HEADER, DLT_RAW, DLT_ATM_CLIP, DLT_LINUX_SLL, DLT_IEEE802_11,
   DLT_IEEE802_11_RADIO]

/-- Three captures under datalink type 147, which has no `case` label: the
two sample frames and the RST frame of the sample flow. -/
def ex_captures_unknown : List capture :=
  [{ dlt := 147, caplen := 43, pkt := ex_frame_next, t := 100, now := 100 },
   { dlt := 147, caplen := 42, pkt := ex_frame_far, t := 200, now := 200 },
   { dlt := 147, caplen := 40, pkt := ex_frame_rst, t := 300, now := 300 }]

/-- A frame of the flow `ex_flow` with sequence number 999, one before the
anchor 1000 of the record, and three payload bytes. Its captured length is
43. -/
def ex_frame_before : List Nat :=
  mk_frame 0x0a000001 0x0a000002 40000 80 999 0x18 [1, 2, 3]

/-- The segment `ex_frame_before` spells. -/
def ex_seg_before : segment :=
  { s := 0x0a000001, d := 0x0a000002, sport := -25536, dport := 80, seq := 999,
    flags := 0x18, off := 40, len := 3 }

/-- A frame of a flow `10.0.0.9:50000 -> 10.0.0.2:80` that has no record in
the sample table, with sequence number 7777, two payload bytes and flags PSH
and ACK (no SYN). Its captured length is 42. -/
def ex_frame_new : List Nat :=
  mk_frame 0x0a000009 0x0a000002 50000 80 7777 0x18 [1, 2]

/-- The segment `ex_frame_new` spells. -/
def ex_seg_new : segment :=
  { s := 0x0a000009, d := 0x0a000002, sport := -15536, dport := 80, seq := 7777,
    flags := 0x18, off := 40, len := 2 }

/-- The record `process_packet` creates for `ex_frame_new` at time 100. -/
def ex_new : connection :=
  { src := 0x0a000009, dst := 0x0a000002, sport := -15536, dport := 80, isn := 7777,
    len := 0, fin := false, last := 100, blocks := [] }

/-- A truncated frame of the flow `10.0.0.9:50000 -> 10.0.0.2:80`: 40 bytes
are captured, the IP header and the first 20 bytes of the TCP header, whose
data-offset field says the TCP header is 60 bytes long. Sequence number 7777,
flags PSH and ACK. -/
def ex_frame_cut : List Nat :=
  (mk_frame 0x0a000009 0x0a000002 50000 80 7777 0x18 []).set 32 0xF0

/-- The segment `ex_frame_cut` spells at captured length 40: the payload
offset is 80 and the payload length `40 - 80`. -/
def ex_seg_cut : segment :=
  { s := 0x0a000009, d := 0x0a000002, sport := -15536, dport := 80, seq := 7777,
    flags := 0x18, off := 80, len := -40 }

/-- A truncated frame of the sample flow `ex_flow`, like `ex_frame_cut`, with
flags FIN and ACK. -/
def ex_frame_cut_fin : List Nat :=
  (mk_frame 0x0a000001 0x0a000002 40000 80 1003 0x11 []).set 32 0xF0

/-- The segment `ex_frame_cut_fin` spells at captured length 40. -/
def ex_seg_cut_fin : segment :=
  { s := 0x0a000001, d := 0x0a000002, sport := -25536, dport := 80, seq := 1003,
    flags := 0x11, off := 80, len := -40 }

/-- The sample record `ex_flow` with `fin` set. -/
def ex_flow_fin : connection :=
  { src := 0x0a000001, dst := 0x0a000002, sport := -25536, dport := 80, isn := 1000,
    len := 3, fin := true, last := 100, blocks := [{ off := 0, len := 3 }] }

end Driftnet

/-! # Properties -/

namespace Driftnet

/-! ## The sequence mapper: properties -/

/-- The non-wrapping branch: for `isn <= seq` the offset is `seq - isn`. -/
theorem segment_offset_of_le (isn seq : Nat) (hseq : seq < U32) (h : isn ≤ seq) :
    segment_offset isn seq = seq - isn := by
  have hisn : isn < U32 := lt_of_le_of_lt h hseq
  unfold segment_offset usub uadd
  simp only [U32] at *
  have e : (isn + 0) % 2 ^ 32 = isn := by omega
  simp only [e]
  rw [if_neg (by omega)]
  omega

/-- The wrapping branch: for `seq < isn` the offset is
`0xffffffff - (isn - seq)`. -/
theorem segment_offset_of_lt (isn seq : Nat) (hisn : isn < U32) (h : seq < isn) :
    segment_offset isn seq = 4294967295 - (isn - seq) := by
  unfold segment_offset usub uadd
  simp only [U32] at *
  have e : (isn + 0) % 2 ^ 32 = isn := by omega
  simp only [e]
  rw [if_pos h]
  omega

/-- The offset is an `unsigned int`. -/
theorem segment_offset_lt (isn seq : Nat) : segment_offset isn seq < U32 := by
  unfold segment_offset usub
  simp only [U32]
  split <;> omega

/-- C1 (the code at the failing input): on a record with `isn = 1` a segment
with sequence number `0` is given offset `4294967294 = 0xfffffffe`, one less
than `(2^32 - isn) + seq = 4294967295`, the unsigned difference `seq - isn`;
the offset does lie in `[0, 2^32)`. -/
theorem C1_wrap_offset_off_by_one :
    segment_offset 1 0 = 4294967294
      ∧ segment_offset 1 0 ≠ (2 ^ 32 - 1) + 0
      ∧ segment_offset 1 0 ≠ (0 + 2 ^ 32 - 1) % 2 ^ 32
      ∧ segment_offset 1 0 < 2 ^ 32 := by
  decide

/-- C2: for 32-bit `isn` and `seq` with `isn <= seq` the offset computed for
the segment is exactly `seq - isn`, which is the subtraction modulo `2^32`,
and it is monotone in `seq`. -/
theorem C2_offset_no_wrap (isn seq : Nat) (hseq : seq < 2 ^ 32) (h : isn ≤ seq) :
    segment_offset isn seq = seq - isn
      ∧ segment_offset isn seq = (seq + 2 ^ 32 - isn) % 2 ^ 32
      ∧ ∀ seq2, seq2 < 2 ^ 32 → seq ≤ seq2 →
          segment_offset isn seq ≤ segment_offset isn seq2 := by
  have hs : seq < U32 := by simpa [U32] using hseq
  refine ⟨segment_offset_of_le isn seq hs h, ?_, ?_⟩
  · rw [segment_offset_of_le isn seq hs h]
    omega
  · intro seq2 h2 hle
    have hs2 : seq2 < U32 := by simpa [U32] using h2
    rw [segment_offset_of_le isn seq hs h,
      segment_offset_of_le isn seq2 hs2 (le_trans h hle)]
    omega

/-- C2 at `isn = 1000`, `seq = 1100`: the offset is `100`. -/
theorem C2_offset_no_wrap_witness :
    segment_offset 1000 1100 = 1100 - 1000
      ∧ segment_offset 1000 1100 = (1100 + 2 ^ 32 - 1000) % 2 ^ 32
      ∧ ∀ seq2, seq2 < 2 ^ 32 → 1100 ≤ seq2 →
          segment_offset 1000 1100 ≤ segment_offset 1000 seq2 :=
  C2_offset_no_wrap 1000 1100 (by decide) (by decide)


/-! ## The sweep: properties -/

/-- The condition of the sweep, spelled out. -/
theorem sweep_test_iff (now : Int) (c : connection) :
    sweep_test now c = true ↔
      (now - c.last > TIMEOUT ∨ (c.fin = true ∧ c.blocks.length ≤ 1)
        ∨ c.len > MAXCONNECTIONDATA) := by
  unfold sweep_test
  rcases hb : c.blocks with _ | ⟨b, _ | ⟨b2, bs⟩⟩ <;>
    simp [Bool.or_eq_true, Bool.and_eq_true, or_assoc]

/-- The table after the sweep is the table with `sweep_slot` applied to every
slot. -/
theorem sweep_connections_fst (E : Collab) (now : Int) (slots : Slots) :
    (sweep_connections E now slots).1 = slots.map (sweep_slot now) := by
  induction slots with
  | nil => rfl
  | cons s rest ih =>
    cases s with
    | none => simp [sweep_connections, sweep_slot, ih]
    | some c =>
      by_cases h : sweep_test now c = true
      · simp [sweep_connections, sweep_slot, ih, h]
      · simp [sweep_connections, sweep_slot, ih, h]

/-- Slot `i` after the sweep. -/
theorem sweep_connections_getElem? (E : Collab) (now : Int) (slots : Slots) (i : Nat) :
    (sweep_connections E now slots).1[i]? = (slots[i]?).map (sweep_slot now) := by
  rw [sweep_connections_fst, List.getElem?_map]

/-- Every call the sweep makes is made for a live record that passes the
test: the extractor on the record, then the deletion. -/
theorem sweep_connections_trace (E : Collab) (now : Int) (slots : Slots) (e : Event)
    (he : e ∈ (sweep_connections E now slots).2) :
    ∃ c, some c ∈ slots ∧ sweep_test now c = true
      ∧ (e = Event.extract c ∨ e = Event.delete (E.extract c)) := by
  induction slots with
  | nil => simp [sweep_connections] at he
  | cons s rest ih =>
    cases s with
    | none =>
      simp only [sweep_connections] at he
      obtain ⟨c, hc, h1, h2⟩ := ih he
      exact ⟨c, List.mem_cons_of_mem _ hc, h1, h2⟩
    | some c =>
      by_cases h : sweep_test now c = true
      · simp only [sweep_connections, h, if_true, List.mem_cons] at he
        rcases he with he | he | he
        · exact ⟨c, List.mem_cons_self _ _, h, Or.inl he⟩
        · exact ⟨c, List.mem_cons_self _ _, h, Or.inr he⟩
        · obtain ⟨c2, hc, h1, h2⟩ := ih he
          exact ⟨c2, List.mem_cons_of_mem _ hc, h1, h2⟩
      · simp only [sweep_connections, h] at he
        obtain ⟨c2, hc, h1, h2⟩ := ih he
        exact ⟨c2, List.mem_cons_of_mem _ hc, h1, h2⟩

/-- A sweep in which no live record passes the test changes nothing and makes
no call. -/
theorem sweep_connections_noop (E : Collab) (now : Int) (slots : Slots)
    (h : ∀ c, some c ∈ slots → sweep_test now c = false) :
    sweep_connections E now slots = (slots, []) := by
  induction slots with
  | nil => rfl
  | cons s rest ih =>
    have ih2 := ih (fun c hc => h c (List.mem_cons_of_mem _ hc))
    cases s with
    | none => simp [sweep_connections, ih2]
    | some c =>
      have hc := h c (List.mem_cons_self _ _)
      simp [sweep_connections, ih2, hc]


/-- C7 (counterexample): a live record that is neither idle nor over the size
cap, with FIN seen and a single block at offset 50, is retired by the sweep,
although its block list is neither empty nor one block at offset 0. -/
theorem C7_counterexample :
    live [some ex_fin_block50] 0 ex_fin_block50
      ∧ 100 - ex_fin_block50.last ≤ TIMEOUT
      ∧ ex_fin_block50.len ≤ MAXCONNECTIONDATA
      ∧ (sweep_connections refCollab 100 [some ex_fin_block50]).1[0]? = some none
      ∧ ¬ (ex_fin_block50.fin = true
            ∧ (ex_fin_block50.blocks = []
                ∨ ∃ b : datablock, ex_fin_block50.blocks = [b] ∧ b.off = 0)) := by
  refine ⟨by decide, by decide, by decide, by decide, ?_⟩
  rintro ⟨-, h | ⟨b, hb, h0⟩⟩
  · cases h
  · cases hb
    cases h0

/-- C7 (amended): a live record that is neither idle nor over the size cap is
retired by the sweep if and only if FIN is set and its block list has at most
one block, whatever the offset of that block; otherwise it stays in its
slot. -/
theorem C7_fin_retirement (E : Collab) (now : Int) (slots : Slots) (i : Nat)
    (c : connection) (hlive : live slots i c)
    (hidle : now - c.last ≤ TIMEOUT) (hlen : c.len ≤ MAXCONNECTIONDATA) :
    ((sweep_connections E now slots).1[i]? = some none
        ↔ (c.fin = true ∧ c.blocks.length ≤ 1))
      ∧ ((sweep_connections E now slots).1[i]? ≠ some none
        → (sweep_connections E now slots).1[i]? = some (some c)) := by
  have hl : slots[i]? = some (some c) := hlive
  rw [sweep_connections_getElem?, hl]
  have ht := sweep_test_iff now c
  by_cases h : sweep_test now c = true
  · have : c.fin = true ∧ c.blocks.length ≤ 1 := by
      rcases ht.mp h with h1 | h1 | h1
      · omega
      · exact h1
      · omega
    simp [sweep_slot, h, this]
  · have hn : ¬ (c.fin = true ∧ c.blocks.length ≤ 1) := fun h2 => h (ht.mpr (Or.inr (Or.inl h2)))
    simp only [Option.map_some', sweep_slot, h]
    simp [hn]

/-- C7 (amended) on a FIN-seen record with one block at offset 50. -/
theorem C7_fin_retirement_witness :
    ((sweep_connections refCollab 100 [some ex_fin_block50]).1[0]? = some none
        ↔ (ex_fin_block50.fin = true ∧ ex_fin_block50.blocks.length ≤ 1))
      ∧ ((sweep_connections refCollab 100 [some ex_fin_block50]).1[0]? ≠ some none
        → (sweep_connections refCollab 100 [some ex_fin_block50]).1[0]?
            = some (some ex_fin_block50)) :=
  C7_fin_retirement refCollab 100 [some ex_fin_block50] 0 ex_fin_block50
    (by decide) (by decide) (by decide)

/-- C8 (counterexample): a live record whose last activity lies exactly
`TIMEOUT = 5` seconds before the time the sweep reads, with no FIN and no
data, is kept by the sweep. -/
theorem C8_counterexample :
    live [some ex_quiet95] 0 ex_quiet95
      ∧ 100 - ex_quiet95.last ≥ 5
      ∧ (sweep_connections refCollab 100 [some ex_quiet95]).1[0]? = some (some ex_quiet95)
      ∧ (sweep_connections refCollab 100 [some ex_quiet95]).1[0]? ≠ some none := by
  decide

/-- C8 (amended): a live record whose last activity lies more than `TIMEOUT`
seconds before the time the sweep reads (`now - last > 5`) is retired by the
sweep, its slot emptied, whatever its FIN flag, block list and length. -/
theorem C8_idle_retirement (E : Collab) (now : Int) (slots : Slots) (i : Nat)
    (c : connection) (hlive : live slots i c) (hidle : now - c.last > 5) :
    (sweep_connections E now slots).1[i]? = some none := by
  have hl : slots[i]? = some (some c) := hlive
  rw [sweep_connections_getElem?, hl]
  have h : sweep_test now c = true :=
    (sweep_test_iff now c).mpr (Or.inl (by simpa [TIMEOUT] using hidle))
  simp [sweep_slot, h]

/-- C8 (amended) on a record idle for 6 seconds. -/
theorem C8_idle_retirement_witness :
    (sweep_connections refCollab 101 [some ex_quiet95]).1[0]? = some none :=
  C8_idle_retirement refCollab 101 [some ex_quiet95] 0 ex_quiet95 (by decide) (by decide)

/-- C9: a live record with `len > 8 * 1024 * 1024` is retired by the sweep,
its slot emptied, whatever its FIN flag, blocks and last-activity time; a
record with `len` exactly 8 MiB that is not idle and not FIN-complete is
kept. -/
theorem C9_size_cap (E : Collab) (now : Int) (slots : Slots) (i : Nat)
    (c : connection) (hlive : live slots i c) :
    (c.len > 8 * 1024 * 1024 → (sweep_connections E now slots).1[i]? = some none)
      ∧ (c.len = 8 * 1024 * 1024 → now - c.last ≤ TIMEOUT
          → ¬ (c.fin = true ∧ c.blocks.length ≤ 1)
          → (sweep_connections E now slots).1[i]? = some (some c)) := by
  have hl : slots[i]? = some (some c) := hlive
  rw [sweep_connections_getElem?, hl]
  have ht := sweep_test_iff now c
  constructor
  · intro hbig
    have h : sweep_test now c = true :=
      ht.mpr (Or.inr (Or.inr (by simpa [MAXCONNECTIONDATA] using hbig)))
    simp [sweep_slot, h]
  · intro heq hidle hfin
    have h : ¬ sweep_test now c = true := by
      intro h
      rcases ht.mp h with h1 | h1 | h1
      · omega
      · exact hfin h1
      · simp only [MAXCONNECTIONDATA] at h1
        omega
    simp [sweep_slot, h]

/-- C9 on a record of `8 MiB + 1` bytes and on one of exactly 8 MiB, both
fresh and without FIN, in slot 1. -/
theorem C9_size_cap_witness :
    (live [none, some ex_big] 1 ex_big
      ∧ ex_big.len > 8 * 1024 * 1024
      ∧ (sweep_connections refCollab 100 [none, some ex_big]).1[1]? = some none)
    ∧ (live [none, some ex_cap] 1 ex_cap
      ∧ ex_cap.len = 8 * 1024 * 1024
      ∧ (sweep_connections refCollab 100 [none, some ex_cap]).1[1]? = some (some ex_cap)) :=
  ⟨⟨by decide, by decide,
    (C9_size_cap refCollab 100 [none, some ex_big] 1 ex_big (by decide)).1 (by decide)⟩,
   ⟨by decide, by decide,
    (C9_size_cap refCollab 100 [none, some ex_cap] 1 ex_cap (by decide)).2
      (by decide) (by decide) (by decide)⟩⟩

/-- C10: a live record with `now - last <= TIMEOUT`, `len <= 8 MiB` and FIN
unset or at least two blocks stays in its slot with all fields unchanged, and
the sweep calls neither the extractor nor the deletion on it; and a sweep of
a table all of whose live records are such changes nothing and makes no
call. -/
theorem C10_sweep_keeps (E : Collab) (now : Int) (slots : Slots) (i : Nat)
    (c : connection) (hlive : live slots i c)
    (hidle : now - c.last ≤ TIMEOUT) (hlen : c.len ≤ MAXCONNECTIONDATA)
    (hfin : c.fin = false ∨ 2 ≤ c.blocks.length) :
    (sweep_connections E now slots).1[i]? = some (some c)
      ∧ Event.extract c ∉ (sweep_connections E now slots).2
      ∧ ((∀ j cj, live slots j cj →
            now - cj.last ≤ TIMEOUT ∧ cj.len ≤ MAXCONNECTIONDATA
              ∧ (cj.fin = false ∨ 2 ≤ cj.blocks.length))
          → sweep_connections E now slots = (slots, [])) := by
  have key : ∀ d : connection, now - d.last ≤ TIMEOUT → d.len ≤ MAXCONNECTIONDATA
      → (d.fin = false ∨ 2 ≤ d.blocks.length) → sweep_test now d = false := by
    intro d h1 h2 h3
    rcases hb : sweep_test now d with _ | _
    · rfl
    · rcases (sweep_test_iff now d).mp hb with h | h | h
      · omega
      · rcases h3 with h3 | h3
        · rw [h3] at h
          exact absurd h.1 (by decide)
        · omega
      · omega
  have ht := key c hidle hlen hfin
  have hl : slots[i]? = some (some c) := hlive
  refine ⟨?_, ?_, ?_⟩
  · rw [sweep_connections_getElem?, hl]
    simp [sweep_slot, ht]
  · intro he
    obtain ⟨c2, -, h2, h3⟩ := sweep_connections_trace E now slots _ he
    rcases h3 with h3 | h3
    · cases h3
      rw [ht] at h2
      exact absurd h2 (by decide)
    · cases h3
  · intro hall
    apply sweep_connections_noop
    intro d hd
    obtain ⟨j, hj⟩ := List.getElem?_of_mem hd
    obtain ⟨h1, h2, h3⟩ := hall j d hj
    exact key d h1 h2 h3

/-- C10 on a table whose only record has FIN seen and two blocks with a gap
between them, swept at the last instant before it counts as idle. -/
theorem C10_sweep_keeps_witness :
    live [some ex_fin_gap, none] 0 ex_fin_gap
      ∧ ex_fin_gap.fin = true ∧ ex_fin_gap.blocks.length = 2
      ∧ (sweep_connections refCollab 105 [some ex_fin_gap, none]).1[0]? = some (some ex_fin_gap)
      ∧ Event.extract ex_fin_gap ∉ (sweep_connections refCollab 105 [some ex_fin_gap, none]).2
      ∧ sweep_connections refCollab 105 [some ex_fin_gap, none] = ([some ex_fin_gap, none], []) :=
  have h := C10_sweep_keeps refCollab 105 [some ex_fin_gap, none] 0 ex_fin_gap
    (by decide) (by decide) (by decide) (by decide)
  ⟨by decide, by decide, by decide, h.1, h.2.1, h.2.2 (by
    intro j cj hj
    match j, hj with
    | 0, hj =>
      have e : cj = ex_fin_gap := by
        have := Option.some.inj (Option.some.inj hj)
        exact this.symm
      subst e
      decide
    | (k + 1), hj => exact absurd hj (by cases k <;> simp))⟩


/-! ## The table: lookup and allocation -/

/-- The slot test of `find_connection` is equality of the 4-tuple. -/
theorem slot_matches_iff (src dst : Nat) (sport dport : Int) (c : connection) :
    slot_matches src dst sport dport (some c) = true ↔ tuple c = (src, sport, dst, dport) := by
  simp only [slot_matches, tuple, Bool.and_eq_true, decide_eq_true_eq, Prod.mk.injEq]
  tauto

/-- A slot returned by `find_connection` is live, holds the returned record,
the record has the tuple asked for, and no live slot before it has. -/
theorem find_connection_some (src dst : Nat) (sport dport : Int) :
    ∀ (slots : Slots) (i : Nat) (c : connection),
      find_connection src dst sport dport slots = some (i, c) →
      live slots i c ∧ tuple c = (src, sport, dst, dport)
        ∧ ∀ j cj, j < i → live slots j cj → tuple cj ≠ (src, sport, dst, dport) := by
  intro slots
  induction slots with
  | nil => intro i c h; simp [find_connection] at h
  | cons s rest ih =>
    intro i c h
    have step : ∀ p : Nat × connection,
        find_connection src dst sport dport rest = some p → (p.1 + 1, p.2) = (i, c) →
        (∀ c0, s = some c0 → tuple c0 ≠ (src, sport, dst, dport)) →
        live (s :: rest) i c ∧ tuple c = (src, sport, dst, dport)
          ∧ ∀ j cj, j < i → live (s :: rest) j cj → tuple cj ≠ (src, sport, dst, dport) := by
      rintro ⟨k, c1⟩ hp he hs
      simp only [Prod.mk.injEq] at he
      obtain ⟨rfl, rfl⟩ := he
      obtain ⟨h1, h2, h3⟩ := ih k c1 hp
      refine ⟨by simpa [live] using h1, h2, ?_⟩
      intro j cj hj hl
      cases j with
      | zero =>
        have : s = some cj := by simpa [live] using hl
        exact hs cj this
      | succ j =>
        exact h3 j cj (by omega) (by simpa [live] using hl)
    cases s with
    | none =>
      rcases hf : find_connection src dst sport dport rest with _ | p
      · simp [find_connection, hf] at h
      · have he : (p.1 + 1, p.2) = (i, c) := by simpa [find_connection, hf] using h
        exact step p hf he (fun c0 h0 => by cases h0)
    | some c0 =>
      by_cases hm : slot_matches src dst sport dport (some c0) = true
      · simp only [find_connection, hm, if_true, Option.some.injEq, Prod.mk.injEq] at h
        obtain ⟨rfl, rfl⟩ := h
        refine ⟨by simp [live], (slot_matches_iff _ _ _ _ _).mp hm, ?_⟩
        intro j cj hj
        omega
      · rcases hf : find_connection src dst sport dport rest with _ | p
        · simp [find_connection, hf, hm] at h
        have he : (p.1 + 1, p.2) = (i, c) := by simpa [find_connection, hf, hm] using h
        refine step p hf he ?_
        intro c1 h1
        cases h1
        exact fun ht => hm ((slot_matches_iff _ _ _ _ _).mpr ht)

/-- When `find_connection` returns `NULL` no live slot has the tuple. -/
theorem find_connection_none (src dst : Nat) (sport dport : Int) :
    ∀ (slots : Slots), find_connection src dst sport dport slots = none →
      ∀ j cj, live slots j cj → tuple cj ≠ (src, sport, dst, dport) := by
  intro slots
  induction slots with
  | nil => intro _ j cj hl; simp [live] at hl
  | cons s rest ih =>
    intro h j cj hl
    cases s with
    | none =>
      have h2 : find_connection src dst sport dport rest = none := by
        simpa [find_connection] using h
      cases j with
      | zero => simp [live] at hl
      | succ j => exact ih h2 j cj (by simpa [live] using hl)
    | some c0 =>
      by_cases hm : slot_matches src dst sport dport (some c0) = true
      · simp [find_connection, hm] at h
      · have h2 : find_connection src dst sport dport rest = none := by
          simpa [find_connection, hm] using h
        cases j with
        | zero =>
          have : c0 = cj := by simpa [live] using hl
          subst this
          exact fun ht => hm ((slot_matches_iff _ _ _ _ _).mpr ht)
        | succ j => exact ih h2 j cj (by simpa [live] using hl)

/-- When some live slot has the tuple, `find_connection` does not return
`NULL`. -/
theorem find_connection_isSome (src dst : Nat) (sport dport : Int) (slots : Slots)
    (j : Nat) (cj : connection) (hl : live slots j cj)
    (ht : tuple cj = (src, sport, dst, dport)) :
    ∃ p, find_connection src dst sport dport slots = some p := by
  rcases h : find_connection src dst sport dport slots with _ | p
  · exact absurd ht (find_connection_none src dst sport dport slots h j cj hl)
  · exact ⟨p, rfl⟩

/-- The slot `first_free` returns is in the table and empty, and is the
first such. -/
theorem first_free_some : ∀ (slots : Slots) (i : Nat), first_free slots = some i →
    slots[i]? = some none ∧ ∀ j, j < i → ∃ c, slots[j]? = some (some c) := by
  intro slots
  induction slots with
  | nil => intro i h; simp [first_free] at h
  | cons s rest ih =>
    intro i h
    cases s with
    | none =>
      simp only [first_free, Option.some.injEq] at h
      subst h
      exact ⟨by simp, fun j hj => by omega⟩
    | some c0 =>
      simp only [first_free, Option.map_eq_some'] at h
      obtain ⟨k, hk, rfl⟩ := h
      obtain ⟨h1, h2⟩ := ih k hk
      refine ⟨by simpa using h1, ?_⟩
      intro j hj
      cases j with
      | zero => exact ⟨c0, by simp⟩
      | succ j =>
        obtain ⟨c, hc⟩ := h2 j (by omega)
        exact ⟨c, by simpa using hc⟩

/-- When `first_free` finds nothing every slot of the table is live. -/
theorem first_free_none : ∀ (slots : Slots), first_free slots = none →
    ∀ j, j < slots.length → ∃ c, slots[j]? = some (some c) := by
  intro slots
  induction slots with
  | nil => intro _ j hj; simp at hj
  | cons s rest ih =>
    intro h j hj
    cases s with
    | none => simp [first_free] at h
    | some c0 =>
      simp only [first_free, Option.map_eq_none'] at h
      cases j with
      | zero => exact ⟨c0, by simp⟩
      | succ j =>
        obtain ⟨c, hc⟩ := ih h j (by simpa using hj)
        exact ⟨c, by simpa using hc⟩

/-- The function `alloc_connection` leaves every live record where it is, and adds
none. -/
theorem alloc_connection_live (slots : Slots) (j : Nat) (c : connection) :
    live (alloc_connection slots).1 j c ↔ live slots j c := by
  unfold alloc_connection
  rcases h : first_free slots with _ | i
  · simp only [live, List.getElem?_append]
    by_cases hj : j < slots.length
    · simp [hj]
    · have hn : slots[j]? = none := List.getElem?_eq_none (by omega)
      simp [hj, hn, List.getElem?_replicate]
  · simp

/-- The slot `alloc_connection` returns is empty, if the table has a slot at
all. -/
theorem alloc_connection_free (slots : Slots) (hpos : 0 < slots.length) :
    (alloc_connection slots).1[(alloc_connection slots).2]? = some none := by
  unfold alloc_connection
  rcases h : first_free slots with _ | i
  · simp only [List.getElem?_append, List.getElem?_replicate]
    simp [hpos]
  · exact (first_free_some slots i h).1


/-! ## The table invariant -/

/-- Writing slot `i` leaves the other slots as they are. -/
theorem live_set_ne (slots : Slots) (i j : Nat) (x : Option connection) (c : connection)
    (h : j ≠ i) : live (slots.set i x) j c ↔ live slots j c := by
  simp [live, List.getElem?_set, Ne.symm h]

/-- A live slot of a table in which slot `i` was cleared is another slot,
live before. -/
theorem live_set_none (slots : Slots) (i j : Nat) (c : connection)
    (h : live (slots.set i none) j c) : j ≠ i ∧ live slots j c := by
  by_cases hij : j = i
  · subst hij
    simp only [live, List.getElem?_set] at h
    by_cases hlt : j < slots.length <;> simp [hlt] at h
  · exact ⟨hij, (live_set_ne slots i j none c hij).mp h⟩

/-- A live slot of a table in which slot `i` was written is slot `i` with the
record written, or another slot, live before. -/
theorem live_set_some (slots : Slots) (i j : Nat) (c d : connection)
    (h : live (slots.set i (some d)) j c) :
    (j = i ∧ c = d) ∨ (j ≠ i ∧ live slots j c) := by
  by_cases hij : j = i
  · subst hij
    left
    simp only [live, List.getElem?_set] at h
    by_cases hlt : j < slots.length <;> simp [hlt] at h
    exact ⟨rfl, h.symm⟩
  · exact Or.inr ⟨hij, (live_set_ne slots i j _ c hij).mp h⟩

/-- Clearing a slot keeps the invariant. -/
theorem one_per_tuple_set_none (slots : Slots) (i : Nat) (h : one_per_tuple slots) :
    one_per_tuple (slots.set i none) := by
  intro a b ca cb ha hb ht
  exact h a b ca cb (live_set_none slots i a ca ha).2 (live_set_none slots i b cb hb).2 ht

/-- Writing into slot `i` a record whose tuple no other live slot has keeps
the invariant. -/
theorem one_per_tuple_set_some (slots : Slots) (i : Nat) (d : connection)
    (h : one_per_tuple slots)
    (hd : ∀ j cj, j ≠ i → live slots j cj → tuple cj ≠ tuple d) :
    one_per_tuple (slots.set i (some d)) := by
  intro a b ca cb ha hb ht
  rcases live_set_some slots i a ca d ha with ⟨rfl, rfl⟩ | ⟨ha1, ha2⟩
  · rcases live_set_some slots a b cb ca hb with ⟨rfl, -⟩ | ⟨hb1, hb2⟩
    · rfl
    · exact absurd ht.symm (hd b cb hb1 hb2)
  · rcases live_set_some slots i b cb d hb with ⟨rfl, rfl⟩ | ⟨hb1, hb2⟩
    · exact absurd ht (hd a ca ha1 ha2)
    · exact h a b ca cb ha2 hb2 ht

/-- A slot that is live after the sweep was live before, with the same
record, and the record does not pass the sweep test. -/
theorem live_sweep (E : Collab) (now : Int) (slots : Slots) (j : Nat) (c : connection) :
    live (sweep_connections E now slots).1 j c ↔
      (live slots j c ∧ sweep_test now c = false) := by
  simp only [live, sweep_connections_getElem?]
  rcases h : slots[j]? with _ | (_ | d)
  · simp
  · simp [sweep_slot]
  · by_cases ht : sweep_test now d = true
    · simp only [Option.map_some', sweep_slot, ht, if_true]
      constructor
      · intro h2; cases h2
      · rintro ⟨h2, h3⟩
        simp only [Option.some.injEq] at h2
        subst h2
        rw [ht] at h3
        cases h3
    · simp only [Option.map_some', sweep_slot, ht]
      simp only [Bool.not_eq_true] at ht
      constructor
      · intro h2
        simp only [Bool.false_eq_true, if_false, Option.some.injEq] at h2
        subst h2
        exact ⟨rfl, ht⟩
      · rintro ⟨h2, -⟩
        simp only [Option.some.injEq] at h2
        subst h2
        simp

/-- The sweep keeps the invariant. -/
theorem one_per_tuple_sweep (E : Collab) (now : Int) (slots : Slots)
    (h : one_per_tuple slots) : one_per_tuple (sweep_connections E now slots).1 := by
  intro a b ca cb ha hb ht
  exact h a b ca cb ((live_sweep E now slots a ca).mp ha).1
    ((live_sweep E now slots b cb).mp hb).1 ht

/-- A table without live slots satisfies the invariant. -/
theorem one_per_tuple_of_empty (slots : Slots) (h : ∀ s ∈ slots, s = none) :
    one_per_tuple slots := by
  intro a b ca cb ha _ _
  have hm : some ca ∈ slots := List.getElem?_mem ha
  exact absurd (h _ hm) (by simp)

/-! ## The lookup-or-allocate step -/

/-- When `find_connection` finds the tuple, `locate` returns the table as it
is, with the slot and record found. -/
theorem locate_of_find (t : Int) (g : segment) (slots : Slots) (i : Nat) (c : connection)
    (h : find_connection g.s g.d g.sport g.dport slots = some (i, c)) :
    locate t g slots = (slots, i, c) := by
  simp [locate, h]

/-- The record `locate` returns has the tuple of the segment. -/
theorem locate_tuple (t : Int) (g : segment) (slots : Slots) :
    tuple (locate t g slots).2.2 = (g.s, g.sport, g.d, g.dport) := by
  unfold locate
  rcases h : find_connection g.s g.d g.sport g.dport slots with _ | ⟨i, c⟩
  · simp [tuple, connection_new]
  · exact (find_connection_some _ _ _ _ slots i c h).2.1

/-- The slots other than the one `locate` returns are as before. -/
theorem locate_others (t : Int) (g : segment) (slots : Slots) (j : Nat) (cj : connection)
    (hj : j ≠ (locate t g slots).2.1) :
    live (locate t g slots).1 j cj ↔ live slots j cj := by
  unfold locate at hj ⊢
  rcases h : find_connection g.s g.d g.sport g.dport slots with _ | ⟨i, c⟩
  · simp only [h] at hj ⊢
    rw [live_set_ne _ _ _ _ _ hj]
    exact alloc_connection_live slots j cj
  · simp

/-- In a table satisfying the invariant, no slot other than the one `locate`
returns holds a record with the tuple of the segment. -/
theorem locate_unique (t : Int) (g : segment) (slots : Slots) (hinv : one_per_tuple slots)
    (j : Nat) (cj : connection) (hj : j ≠ (locate t g slots).2.1)
    (hl : live (locate t g slots).1 j cj) :
    tuple cj ≠ (g.s, g.sport, g.d, g.dport) := by
  have hl2 := (locate_others t g slots j cj hj).mp hl
  rcases h : find_connection g.s g.d g.sport g.dport slots with _ | ⟨i, c⟩
  · exact find_connection_none _ _ _ _ slots h j cj hl2
  · obtain ⟨h1, h2, -⟩ := find_connection_some _ _ _ _ slots i c h
    rw [locate_of_find t g slots i c h] at hj
    intro ht
    exact hj (hinv j i cj c hl2 h1 (ht.trans h2.symm))

/-- The step `locate` keeps the invariant. -/
theorem one_per_tuple_locate (t : Int) (g : segment) (slots : Slots)
    (hinv : one_per_tuple slots) : one_per_tuple (locate t g slots).1 := by
  rcases h : find_connection g.s g.d g.sport g.dport slots with _ | ⟨i, c⟩
  · have e : locate t g slots = ((alloc_connection slots).1.set (alloc_connection slots).2
        (some { connection_new t g.s g.d g.sport g.dport with isn := g.seq }),
        (alloc_connection slots).2,
        { connection_new t g.s g.d g.sport g.dport with isn := g.seq }) := by
      simp [locate, h]
    rw [e]
    apply one_per_tuple_set_some
    · intro a b ca cb ha hb ht
      exact hinv a b ca cb ((alloc_connection_live slots a ca).mp ha)
        ((alloc_connection_live slots b cb).mp hb) ht
    · intro j cj _ hl
      have := find_connection_none _ _ _ _ slots h j cj ((alloc_connection_live slots j cj).mp hl)
      simpa [tuple, connection_new] using this
  · rw [locate_of_find t g slots i c h]
    exact hinv

/-- The slot `locate` returns holds the record it returns, if the table has a
slot at all. -/
theorem locate_live (t : Int) (g : segment) (slots : Slots) (hpos : 0 < slots.length) :
    live (locate t g slots).1 (locate t g slots).2.1 (locate t g slots).2.2 := by
  rcases h : find_connection g.s g.d g.sport g.dport slots with _ | ⟨i, c⟩
  · have hf := alloc_connection_free slots hpos
    have hlt : (alloc_connection slots).2 < (alloc_connection slots).1.length := by
      rcases hlen : (alloc_connection slots).1[(alloc_connection slots).2]? with _ | x
      · rw [hlen] at hf; cases hf
      · exact (List.getElem?_eq_some.mp hlen).1
    simp only [locate, h, live, List.getElem?_set, if_true, hlt]
  · rw [locate_of_find t g slots i c h]
    exact (find_connection_some _ _ _ _ slots i c h).1


/-! ## The packet processor: one frame -/

/-- A byte is below 256. -/
theorem byte_at_lt (pkt : List Nat) (i : Nat) : byte_at pkt i < 256 :=
  Nat.mod_lt _ (by decide)

/-- The value of `ntohl` is an `unsigned int`. -/
theorem net32_lt (pkt : List Nat) (i : Nat) : net32 pkt i < U32 := by
  have h0 := byte_at_lt pkt i
  have h1 := byte_at_lt pkt (i + 1)
  have h2 := byte_at_lt pkt (i + 2)
  have h3 := byte_at_lt pkt (i + 3)
  simp only [net32, U32]
  omega

/-- A frame that spells a segment has a non-negative link-level header
length, and the segment is the one its headers spell. -/
theorem frame_segment_some (dlt : Int) (caplen : Nat) (pkt : List Nat) (g : segment)
    (hg : frame_segment dlt caplen pkt = some g) :
    ¬ get_frame_link_level_hdr_length dlt pkt < 0
      ∧ g = parse_headers (get_frame_link_level_hdr_length dlt pkt).toNat caplen pkt := by
  unfold frame_segment at hg
  by_cases h : get_frame_link_level_hdr_length dlt pkt < 0
  · simp [h] at hg
  · simp only [h, if_false, Option.some.injEq] at hg
    exact ⟨h, hg.symm⟩

/-- The sequence number of a segment read from a frame is an
`unsigned int`. -/
theorem frame_segment_seq_lt (dlt : Int) (caplen : Nat) (pkt : List Nat) (g : segment)
    (hg : frame_segment dlt caplen pkt = some g) : g.seq < U32 := by
  rw [(frame_segment_some dlt caplen pkt g hg).2]
  exact net32_lt _ _

/-- On a frame that spells the segment `g`, the part of `process_packet`
before the sweep is `process_segment` on `g`. -/
theorem process_packet_body_of_segment (E : Collab) (dlt : Int) (caplen : Nat)
    (pkt : List Nat) (t : Int) (slots : Slots) (g : segment)
    (hg : frame_segment dlt caplen pkt = some g) :
    process_packet_body E dlt caplen pkt t slots = process_segment E t g pkt slots := by
  obtain ⟨h1, h2⟩ := frame_segment_some dlt caplen pkt g hg
  simp only [process_packet_body, h1, if_false, ← h2]

/-- On a frame that spells no segment `process_packet` returns at once. -/
theorem process_packet_of_no_segment (E : Collab) (dlt : Int) (caplen : Nat)
    (pkt : List Nat) (t now : Int) (slots : Slots)
    (hg : frame_segment dlt caplen pkt = none) :
    process_packet E dlt caplen pkt t now slots = (slots, []) := by
  unfold frame_segment at hg
  by_cases h : get_frame_link_level_hdr_length dlt pkt < 0
  · simp [process_packet, process_packet_body, h]
  · simp [h] at hg

/-- The segment without RST: the record is updated in its slot and the sweep
is reached. -/
theorem process_segment_no_rst (E : Collab) (t : Int) (g : segment) (pkt : List Nat)
    (slots : Slots) (hrst : has_flag g.flags TH_RST = false) :
    process_segment E t g pkt slots =
      ((locate t g slots).1.set (locate t g slots).2.1
          (some (handle_fin g (handle_payload E t g pkt (locate t g slots).2.2).1)),
        (handle_payload E t g pkt (locate t g slots).2.2).2, true) := by
  simp [process_segment, hrst]

/-- The segment with RST: the RST branch, and the sweep is not reached. -/
theorem process_segment_rst (E : Collab) (t : Int) (g : segment) (pkt : List Nat)
    (slots : Slots) (hrst : has_flag g.flags TH_RST = true) :
    process_segment E t g pkt slots =
      ((handle_rst g (locate t g slots).1 (locate t g slots).2.1 (locate t g slots).2.2).1,
        (handle_rst g (locate t g slots).1 (locate t g slots).2.1 (locate t g slots).2.2).2,
        false) := by
  simp [process_segment, hrst]

/-- The out-of-order test when `len + WRAPLEN` does not wrap. -/
theorem out_of_order_iff (c : connection) (offset : Nat) (h : c.len + WRAPLEN < U32) :
    out_of_order c offset = true ↔ c.len + WRAPLEN < offset := by
  simp only [out_of_order, uadd, decide_eq_true_eq, Nat.mod_eq_of_lt h]

/-- The payload step on an accepted segment. -/
theorem handle_payload_accept (E : Collab) (t : Int) (g : segment) (pkt : List Nat)
    (c : connection) (hpay : 0 < g.len)
    (hin : out_of_order c (segment_offset c.isn g.seq) = false) :
    handle_payload E t g pkt c =
      (E.extract (E.push t c ((pkt.drop g.off).take g.len.toNat)
          (segment_offset c.isn g.seq) g.len.toNat),
        [Event.push c ((pkt.drop g.off).take g.len.toNat)
          (segment_offset c.isn g.seq) g.len.toNat,
         Event.extract (E.push t c ((pkt.drop g.off).take g.len.toNat)
          (segment_offset c.isn g.seq) g.len.toNat)]) := by
  simp [handle_payload, hpay, hin]

/-- The payload step on a rejected segment. -/
theorem handle_payload_reject (E : Collab) (t : Int) (g : segment) (pkt : List Nat)
    (c : connection) (hout : out_of_order c (segment_offset c.isn g.seq) = true) :
    handle_payload E t g pkt c = (c, []) := by
  simp [handle_payload, hout]

/-- The payload step keeps the tuple of the record, if the collaborators
do. -/
theorem handle_payload_tuple (E : Collab)
    (hpush : ∀ t c data off len, tuple (E.push t c data off len) = tuple c)
    (hext : ∀ c, tuple (E.extract c) = tuple c)
    (t : Int) (g : segment) (pkt : List Nat) (c : connection) :
    tuple (handle_payload E t g pkt c).1 = tuple c := by
  unfold handle_payload
  by_cases h1 : 0 < g.len
  · by_cases h2 : out_of_order c (segment_offset c.isn g.seq) = true
    · simp [h1, h2]
    · simp only [h1, h2, if_true]
      simp [hext, hpush]
  · simp [h1]

/-- The FIN step keeps the tuple of the record. -/
theorem handle_fin_tuple (g : segment) (c : connection) :
    tuple (handle_fin g c) = tuple c := by
  unfold handle_fin
  split <;> rfl

/-- The FIN step sets `fin` when the flag is set and changes nothing else. -/
theorem handle_fin_eq (g : segment) (c : connection) :
    handle_fin g c = { c with fin := c.fin || has_flag g.flags TH_FIN } := by
  unfold handle_fin
  cases c
  cases h : has_flag g.flags TH_FIN <;> simp

/-- The offset of the anchoring sequence number is zero. -/
theorem segment_offset_self (seq : Nat) (h : seq < U32) : segment_offset seq seq = 0 := by
  rw [segment_offset_of_le seq seq h (le_refl _)]
  exact Nat.sub_self _

/-- Writing back the record a live slot holds changes nothing. -/
theorem set_live_self (slots : Slots) (i : Nat) (c : connection) (h : live slots i c) :
    slots.set i (some c) = slots := by
  apply List.ext_getElem?
  intro j
  rw [List.getElem?_set]
  by_cases hij : i = j
  · subst hij
    have hlt : i < slots.length := (List.getElem?_eq_some.mp h).1
    simp only [if_true, hlt]
    exact h.symm
  · simp [hij]

/-- The RST branch keeps the invariant. -/
theorem one_per_tuple_handle_rst (g : segment) (slots : Slots) (i : Nat) (c : connection)
    (hinv : one_per_tuple slots) : one_per_tuple (handle_rst g slots i c).1 := by
  rcases h : find_connection g.d g.s g.dport g.sport (slots.set i none) with _ | ⟨j, cj⟩
  · simp only [handle_rst, h]
    exact one_per_tuple_set_none slots i hinv
  · simp only [handle_rst, h]
    exact one_per_tuple_set_none _ j (one_per_tuple_set_none slots i hinv)

/-- The segment step keeps the invariant, if the collaborators keep the
tuple of the record they work on. -/
theorem one_per_tuple_process_segment (E : Collab)
    (hpush : ∀ t c data off len, tuple (E.push t c data off len) = tuple c)
    (hext : ∀ c, tuple (E.extract c) = tuple c)
    (t : Int) (g : segment) (pkt : List Nat) (slots : Slots) (hinv : one_per_tuple slots) :
    one_per_tuple (process_segment E t g pkt slots).1 := by
  rcases hrst : has_flag g.flags TH_RST with _ | _
  · rw [process_segment_no_rst E t g pkt slots hrst]
    apply one_per_tuple_set_some _ _ _ (one_per_tuple_locate t g slots hinv)
    intro j cj hj hl
    rw [handle_fin_tuple, handle_payload_tuple E hpush hext, locate_tuple]
    exact locate_unique t g slots hinv j cj hj hl
  · rw [process_segment_rst E t g pkt slots hrst]
    exact one_per_tuple_handle_rst g _ _ _ (one_per_tuple_locate t g slots hinv)

/-- One call of `process_packet` keeps the invariant, if the collaborators
keep the tuple of the record they work on. -/
theorem one_per_tuple_process_packet (E : Collab)
    (hpush : ∀ t c data off len, tuple (E.push t c data off len) = tuple c)
    (hext : ∀ c, tuple (E.extract c) = tuple c)
    (dlt : Int) (caplen : Nat) (pkt : List Nat) (t now : Int) (slots : Slots)
    (hinv : one_per_tuple slots) :
    one_per_tuple (process_packet E dlt caplen pkt t now slots).1 := by
  rcases hg : frame_segment dlt caplen pkt with _ | g
  · rw [process_packet_of_no_segment E dlt caplen pkt t now slots hg]
    exact hinv
  · have hb := process_packet_body_of_segment E dlt caplen pkt t slots g hg
    have hs := one_per_tuple_process_segment E hpush hext t g pkt slots hinv
    unfold process_packet
    rw [hb]
    by_cases hr : (process_segment E t g pkt slots).2.2 = true
    · simp only [hr, if_true]
      exact one_per_tuple_sweep E now _ hs
    · simp only [hr]
      exact hs


/-! ## The packet processor: the claims -/

/-- On a frame that spells a segment without RST, `process_packet` is the
payload and FIN steps on the located record followed by the sweep. -/
theorem process_packet_no_rst (E : Collab) (dlt : Int) (caplen : Nat) (pkt : List Nat)
    (t now : Int) (slots : Slots) (g : segment)
    (hg : frame_segment dlt caplen pkt = some g)
    (hrst : has_flag g.flags TH_RST = false) :
    process_packet E dlt caplen pkt t now slots =
      ((sweep_connections E now ((locate t g slots).1.set (locate t g slots).2.1
          (some (handle_fin g (handle_payload E t g pkt (locate t g slots).2.2).1)))).1,
        (handle_payload E t g pkt (locate t g slots).2.2).2 ++
        (sweep_connections E now ((locate t g slots).1.set (locate t g slots).2.1
          (some (handle_fin g (handle_payload E t g pkt (locate t g slots).2.2).1)))).2) := by
  unfold process_packet
  rw [process_packet_body_of_segment E dlt caplen pkt t slots g hg,
    process_segment_no_rst E t g pkt slots hrst]
  simp

/-- On a frame that spells a segment with RST, `process_packet` is the RST
branch on the located record, without the sweep. -/
theorem process_packet_rst (E : Collab) (dlt : Int) (caplen : Nat) (pkt : List Nat)
    (t now : Int) (slots : Slots) (g : segment)
    (hg : frame_segment dlt caplen pkt = some g)
    (hrst : has_flag g.flags TH_RST = true) :
    process_packet E dlt caplen pkt t now slots =
      ((handle_rst g (locate t g slots).1 (locate t g slots).2.1 (locate t g slots).2.2).1,
        (handle_rst g (locate t g slots).1 (locate t g slots).2.1 (locate t g slots).2.2).2) := by
  unfold process_packet
  rw [process_packet_body_of_segment E dlt caplen pkt t slots g hg,
    process_segment_rst E t g pkt slots hrst]
  simp

/-- The sweep never calls `connection_push`. -/
theorem sweep_connections_no_push (E : Collab) (now : Int) (slots : Slots)
    (c : connection) (data : List Nat) (off n : Nat) :
    Event.push c data off n ∉ (sweep_connections E now slots).2 := by
  intro h
  obtain ⟨d, -, -, h2 | h2⟩ := sweep_connections_trace E now slots _ h <;> cases h2

/-- C3: for a frame without RST that carries payload, `c` being the record
`process_packet` works on, with `c.len <= 8 MiB`: `connection_push` is called
on `c` with the computed offset if and only if `offset <= c.len + 262144`;
every call of `connection_push` made is that one, with the payload bytes and
their number; and `c.len + 262144` is below `2^32`. -/
theorem C3_acceptance_test (E : Collab) (dlt : Int) (caplen : Nat) (pkt : List Nat)
    (t now : Int) (slots : Slots) (g : segment) (c : connection)
    (hg : frame_segment dlt caplen pkt = some g)
    (hc : (locate t g slots).2.2 = c)
    (hrst : has_flag g.flags TH_RST = false)
    (hpay : 0 < g.len)
    (hlen : c.len ≤ 8 * 1024 * 1024) :
    ((∃ data n, Event.push c data (segment_offset c.isn g.seq) n
          ∈ (process_packet E dlt caplen pkt t now slots).2)
        ↔ segment_offset c.isn g.seq ≤ c.len + 262144)
      ∧ (∀ c2 data off n,
          Event.push c2 data off n ∈ (process_packet E dlt caplen pkt t now slots).2 →
          c2 = c ∧ off = segment_offset c.isn g.seq
            ∧ data = (pkt.drop g.off).take g.len.toNat ∧ (n : Int) = g.len)
      ∧ c.len + 262144 < 2 ^ 32 := by
  have hsum : c.len + WRAPLEN < U32 := by
    simp only [WRAPLEN, U32]
    omega
  have hooo := out_of_order_iff c (segment_offset c.isn g.seq) hsum
  rw [process_packet_no_rst E dlt caplen pkt t now slots g hg hrst, hc]
  simp only [WRAPLEN] at hooo
  refine ⟨?_, ?_, by omega⟩
  · constructor
    · rintro ⟨data, n, hm⟩
      rcases List.mem_append.mp hm with hm | hm
      · by_contra hgt
        have : out_of_order c (segment_offset c.isn g.seq) = true := hooo.mpr (by omega)
        rw [handle_payload_reject E t g pkt c this] at hm
        simp at hm
      · exact absurd hm (sweep_connections_no_push E now _ _ _ _ _)
    · intro hle
      have hin : out_of_order c (segment_offset c.isn g.seq) = false := by
        rcases hb : out_of_order c (segment_offset c.isn g.seq) with _ | _
        · rfl
        · have := hooo.mp hb
          omega
      rw [handle_payload_accept E t g pkt c hpay hin]
      exact ⟨_, _, List.mem_append_left _ (List.mem_cons_self _ _)⟩
  · intro c2 data off n hm
    rcases List.mem_append.mp hm with hm | hm
    · rcases hb : out_of_order c (segment_offset c.isn g.seq) with _ | _
      · rw [handle_payload_accept E t g pkt c hpay hb] at hm
        simp only [List.mem_cons, Event.push.injEq, List.mem_singleton, reduceCtorEq,
          or_false, List.not_mem_nil] at hm
        obtain ⟨rfl, rfl, rfl, rfl⟩ := hm
        exact ⟨rfl, rfl, rfl, Int.toNat_of_nonneg (le_of_lt hpay)⟩
      · rw [handle_payload_reject E t g pkt c hb] at hm
        simp at hm
    · exact absurd hm (sweep_connections_no_push E now _ _ _ _ _)

/-- C3 on the sample table and the frame at offset 3 of the sample flow: the
push is made, at offset 3. -/
theorem C3_acceptance_test_witness :
    ((∃ data n, Event.push ex_flow data (segment_offset ex_flow.isn ex_seg_next.seq) n
          ∈ (process_packet refCollab DLT_RAW 43 ex_frame_next 100 100 ex_table).2)
        ↔ segment_offset ex_flow.isn ex_seg_next.seq ≤ ex_flow.len + 262144)
      ∧ (∀ c2 data off n,
          Event.push c2 data off n
            ∈ (process_packet refCollab DLT_RAW 43 ex_frame_next 100 100 ex_table).2 →
          c2 = ex_flow ∧ off = segment_offset ex_flow.isn ex_seg_next.seq
            ∧ data = (ex_frame_next.drop ex_seg_next.off).take ex_seg_next.len.toNat
            ∧ (n : Int) = ex_seg_next.len)
      ∧ ex_flow.len + 262144 < 2 ^ 32 :=
  C3_acceptance_test refCollab DLT_RAW 43 ex_frame_next 100 100 ex_table ex_seg_next ex_flow
    (by decide) (by decide) (by decide) (by decide) (by decide)

/-- C4: for a frame without RST, `c` being the record `process_packet` works
on and `i` its slot, if the offset computed for the segment exceeds
`c.len + WRAPLEN` then (whatever the payload length) no call at all is made
before the sweep, the record was in the table already, and before the sweep
the table is as it was except that slot `i` holds `c` with `fin` set if the
frame carries FIN; without FIN the table is unchanged. -/
theorem C4_out_of_order_rejection (E : Collab) (dlt : Int) (caplen : Nat) (pkt : List Nat)
    (t : Int) (slots : Slots) (g : segment) (i : Nat) (c : connection)
    (hg : frame_segment dlt caplen pkt = some g)
    (hi : (locate t g slots).2.1 = i)
    (hc : (locate t g slots).2.2 = c)
    (hrst : has_flag g.flags TH_RST = false)
    (hfar : c.len + WRAPLEN < segment_offset c.isn g.seq) :
    (process_packet_body E dlt caplen pkt t slots).2.1 = []
      ∧ (process_packet_body E dlt caplen pkt t slots).2.2 = true
      ∧ live slots i c
      ∧ (process_packet_body E dlt caplen pkt t slots).1
          = slots.set i (some { c with fin := c.fin || has_flag g.flags TH_FIN })
      ∧ (has_flag g.flags TH_FIN = false →
          (process_packet_body E dlt caplen pkt t slots).1 = slots) := by
  have hoff := segment_offset_lt c.isn g.seq
  have hsum : c.len + WRAPLEN < U32 := lt_trans hfar hoff
  have hooo : out_of_order c (segment_offset c.isn g.seq) = true :=
    (out_of_order_iff c _ hsum).mpr hfar
  -- the record was found, not allocated
  have hfound : find_connection g.s g.d g.sport g.dport slots = some (i, c) := by
    rcases hf : find_connection g.s g.d g.sport g.dport slots with _ | ⟨j, d⟩
    · exfalso
      have e : c = { connection_new t g.s g.d g.sport g.dport with isn := g.seq } := by
        rw [← hc]
        simp [locate, hf]
      have h0 : segment_offset c.isn g.seq = 0 := by
        rw [e]
        exact segment_offset_self g.seq (frame_segment_seq_lt dlt caplen pkt g hg)
      omega
    · have e := locate_of_find t g slots j d hf
      rw [e] at hi hc
      simp only at hi hc
      rw [hi, hc]
  have hloc := locate_of_find t g slots i c hfound
  have hlive : live slots i c := (find_connection_some _ _ _ _ slots i c hfound).1
  rw [process_packet_body_of_segment E dlt caplen pkt t slots g hg,
    process_segment_no_rst E t g pkt slots hrst, hloc]
  simp only [handle_payload_reject E t g pkt c hooo, handle_fin_eq]
  refine ⟨trivial, trivial, hlive, trivial, ?_⟩
  intro hfin
  rw [hfin]
  have e : ({ c with fin := c.fin || false } : connection) = c := by
    cases c
    simp
  rw [e]
  exact set_live_self slots i c hlive

/-- C4 on the sample table and the frame of the sample flow whose offset is
`len + WRAPLEN + 1`, with FIN set: nothing is called and only `fin`
changes. -/
theorem C4_out_of_order_rejection_witness :
    (process_packet_body refCollab DLT_RAW 42 ex_frame_far 100 ex_table).2.1 = []
      ∧ (process_packet_body refCollab DLT_RAW 42 ex_frame_far 100 ex_table).2.2 = true
      ∧ live ex_table 0 ex_flow
      ∧ (process_packet_body refCollab DLT_RAW 42 ex_frame_far 100 ex_table).1
          = ex_table.set 0
              (some { ex_flow with fin := ex_flow.fin || has_flag ex_seg_far.flags TH_FIN })
      ∧ (has_flag ex_seg_far.flags TH_FIN = false →
          (process_packet_body refCollab DLT_RAW 42 ex_frame_far 100 ex_table).1 = ex_table) :=
  C4_out_of_order_rejection refCollab DLT_RAW 42 ex_frame_far 100 ex_table ex_seg_far 0 ex_flow
    (by decide) (by decide) (by decide) (by decide) (by decide)


/-- Every run of `process_packet` keeps the invariant, if the collaborators
keep the tuple of the record they work on. -/
theorem one_per_tuple_run (E : Collab)
    (hpush : ∀ t c data off len, tuple (E.push t c data off len) = tuple c)
    (hext : ∀ c, tuple (E.extract c) = tuple c) :
    ∀ (fs : List capture) (slots : Slots), one_per_tuple slots →
      one_per_tuple (run E fs slots) := by
  intro fs
  induction fs with
  | nil => intro slots h; exact h
  | cons f fs ih =>
    intro slots h
    exact ih _ (one_per_tuple_process_packet E hpush hext f.dlt f.caplen f.pkt f.t f.now slots h)

/-- C5: starting from a table whose slots are all empty, after any sequence
of `process_packet` calls (any frames, so any addresses, ports and flags) no
two live slots hold records with the same `(src, sport, dst, dport)`,
provided `connection_push` and `connection_extract_media` leave the tuple of
the record alone; and when `find_connection` returns a slot, the
lookup-or-allocate step allocates nothing and leaves the table as it is. -/
theorem C5_one_record_per_tuple (E : Collab)
    (hpush : ∀ t c data off len, tuple (E.push t c data off len) = tuple c)
    (hext : ∀ c, tuple (E.extract c) = tuple c)
    (slots0 : Slots) (hempty : ∀ s ∈ slots0, s = none) (fs : List capture) :
    one_per_tuple (run E fs slots0)
      ∧ ∀ (t : Int) (g : segment) (slots : Slots) (p : Nat × connection),
          find_connection g.s g.d g.sport g.dport slots = some p →
          locate t g slots = (slots, p.1, p.2) := by
  refine ⟨one_per_tuple_run E hpush hext fs slots0 (one_per_tuple_of_empty slots0 hempty), ?_⟩
  rintro t g slots ⟨i, c⟩ h
  exact locate_of_find t g slots i c h

/-- C5 on a table of two empty slots and three captures: two of the flow
`10.0.0.1:40000 -> 10.0.0.2:80` (port 40000 is above 32767) and one of the
reverse flow. -/
theorem C5_one_record_per_tuple_witness :
    one_per_tuple (run refCollab ex_captures [none, none])
      ∧ ∀ (t : Int) (g : segment) (slots : Slots) (p : Nat × connection),
          find_connection g.s g.d g.sport g.dport slots = some p →
          locate t g slots = (slots, p.1, p.2) :=
  C5_one_record_per_tuple refCollab (fun _ _ _ _ _ => rfl) (fun _ => rfl) [none, none]
    (by decide) ex_captures

/-- A live record whose tuple is not that of the segment is not in the slot
`locate` returns. -/
theorem locate_idx_ne (t : Int) (g : segment) (slots : Slots) (j : Nat) (cj : connection)
    (hl : live slots j cj) (ht : tuple cj ≠ (g.s, g.sport, g.d, g.dport)) :
    j ≠ (locate t g slots).2.1 := by
  have hpos : 0 < slots.length := by
    have := (List.getElem?_eq_some.mp hl).1
    omega
  have h1 := locate_live t g slots hpos
  intro hj
  rcases hf : find_connection g.s g.d g.sport g.dport slots with _ | ⟨i, c⟩
  · have hfree := alloc_connection_free slots hpos
    have hidx : (locate t g slots).2.1 = (alloc_connection slots).2 := by
      simp [locate, hf]
    have h2 := (alloc_connection_live slots j cj).mpr hl
    rw [hj, hidx] at h2
    rw [h2] at hfree
    cases hfree
  · rw [locate_of_find t g slots i c hf] at hj h1
    simp only at hj h1
    subst hj
    have e : cj = c := by
      have := hl.symm.trans h1
      simpa using this
    subst e
    exact ht (find_connection_some _ _ _ _ slots j cj hf).2.1

/-- C6: for a table satisfying the one-record-per-tuple invariant and a frame
with RST set on the tuple `(s, sport, d, dport)`, after `process_packet` no
live record has that tuple or the reverse tuple `(d, dport, s, sport)`, the
extractor and `connection_push` are called on no record, and a record of any
other tuple is live in a slot after the call exactly when it was before. -/
theorem C6_reset_symmetry (E : Collab) (dlt : Int) (caplen : Nat) (pkt : List Nat)
    (t now : Int) (slots : Slots) (g : segment)
    (hinv : one_per_tuple slots)
    (hg : frame_segment dlt caplen pkt = some g)
    (hrst : has_flag g.flags TH_RST = true) :
    (∀ j c, live (process_packet E dlt caplen pkt t now slots).1 j c →
        tuple c ≠ (g.s, g.sport, g.d, g.dport) ∧ tuple c ≠ (g.d, g.dport, g.s, g.sport))
      ∧ (∀ e ∈ (process_packet E dlt caplen pkt t now slots).2, ∃ c, e = Event.delete c)
      ∧ (∀ j c, tuple c ≠ (g.s, g.sport, g.d, g.dport) →
          tuple c ≠ (g.d, g.dport, g.s, g.sport) →
          (live (process_packet E dlt caplen pkt t now slots).1 j c ↔ live slots j c)) := by
  rw [process_packet_rst E dlt caplen pkt t now slots g hg hrst]
  have hinvL := one_per_tuple_locate t g slots hinv
  have hinv1 := one_per_tuple_set_none (locate t g slots).1 (locate t g slots).2.1 hinvL
  -- after the first deletion no live record has the forward tuple
  have hfwd : ∀ j c, live ((locate t g slots).1.set (locate t g slots).2.1 none) j c →
      tuple c ≠ (g.s, g.sport, g.d, g.dport) := by
    intro j c hl
    obtain ⟨h1, h2⟩ := live_set_none _ _ j c hl
    exact locate_unique t g slots hinv j c h1 h2
  -- records of other tuples are untouched by the first deletion
  have hkeep : ∀ j c, tuple c ≠ (g.s, g.sport, g.d, g.dport) →
      (live ((locate t g slots).1.set (locate t g slots).2.1 none) j c ↔ live slots j c) := by
    intro j c ht
    constructor
    · intro hl
      obtain ⟨h1, h2⟩ := live_set_none _ _ j c hl
      exact (locate_others t g slots j c h1).mp h2
    · intro hl
      have h1 := locate_idx_ne t g slots j c hl ht
      exact (live_set_ne _ _ j none c h1).mpr ((locate_others t g slots j c h1).mpr hl)
  rcases hf : find_connection g.d g.s g.dport g.sport
      ((locate t g slots).1.set (locate t g slots).2.1 none) with _ | ⟨k, ck⟩
  · simp only [handle_rst, hf]
    refine ⟨fun j c hl => ⟨hfwd j c hl, find_connection_none _ _ _ _ _ hf j c hl⟩, ?_, ?_⟩
    · intro e he
      exact ⟨_, List.mem_singleton.mp he⟩
    · intro j c ht _
      exact hkeep j c ht
  · simp only [handle_rst, hf]
    obtain ⟨hk1, hk2, -⟩ := find_connection_some _ _ _ _ _ k ck hf
    refine ⟨?_, ?_, ?_⟩
    · intro j c hl
      obtain ⟨h1, h2⟩ := live_set_none _ _ j c hl
      refine ⟨hfwd j c h2, ?_⟩
      intro ht
      exact h1 (hinv1 j k c ck h2 hk1 (ht.trans hk2.symm))
    · intro e he
      simp only [List.mem_cons, List.mem_singleton, List.not_mem_nil, or_false] at he
      rcases he with he | he
      · exact ⟨_, he⟩
      · exact ⟨_, he⟩
    · intro j c ht hr
      rw [← hkeep j c ht]
      constructor
      · intro hl
        exact (live_set_none _ _ j c hl).2
      · intro hl
        have hjk : j ≠ k := by
          rintro rfl
          have e : c = ck := by
            have := hl.symm.trans hk1
            simpa using this
          exact hr (e ▸ hk2)
        exact (live_set_ne _ _ j none c hjk).mpr hl

/-- C6 on the sample table, which holds the flow, its reverse and an
unrelated flow, and a frame of the flow with RST set. -/
theorem C6_reset_symmetry_witness :
    (∀ j c, live (process_packet refCollab DLT_RAW 40 ex_frame_rst 100 100 ex_table).1 j c →
        tuple c ≠ (ex_seg_rst.s, ex_seg_rst.sport, ex_seg_rst.d, ex_seg_rst.dport)
          ∧ tuple c ≠ (ex_seg_rst.d, ex_seg_rst.dport, ex_seg_rst.s, ex_seg_rst.sport))
      ∧ (∀ e ∈ (process_packet refCollab DLT_RAW 40 ex_frame_rst 100 100 ex_table).2,
          ∃ c, e = Event.delete c)
      ∧ (∀ j c, tuple c ≠ (ex_seg_rst.s, ex_seg_rst.sport, ex_seg_rst.d, ex_seg_rst.dport) →
          tuple c ≠ (ex_seg_rst.d, ex_seg_rst.dport, ex_seg_rst.s, ex_seg_rst.sport) →
          (live (process_packet refCollab DLT_RAW 40 ex_frame_rst 100 100 ex_table).1 j c
            ↔ live ex_table j c)) :=
  C6_reset_symmetry refCollab DLT_RAW 40 ex_frame_rst 100 100 ex_table ex_seg_rst
    (by
      intro i j ci cj hi hj ht
      match i, j, hi, hj with
      | 0, 0, _, _ => rfl
      | 2, 2, _, _ => rfl
      | 3, 3, _, _ => rfl
      | 0, 2, hi, hj =>
        cases Option.some.inj (Option.some.inj hi)
        cases Option.some.inj (Option.some.inj hj)
        exact absurd ht (by decide)
      | 0, 3, hi, hj =>
        cases Option.some.inj (Option.some.inj hi)
        cases Option.some.inj (Option.some.inj hj)
        exact absurd ht (by decide)
      | 2, 0, hi, hj =>
        cases Option.some.inj (Option.some.inj hi)
        cases Option.some.inj (Option.some.inj hj)
        exact absurd ht (by decide)
      | 2, 3, hi, hj =>
        cases Option.some.inj (Option.some.inj hi)
        cases Option.some.inj (Option.some.inj hj)
        exact absurd ht (by decide)
      | 3, 0, hi, hj =>
        cases Option.some.inj (Option.some.inj hi)
        cases Option.some.inj (Option.some.inj hj)
        exact absurd ht (by decide)
      | 3, 2, hi, hj =>
        cases Option.some.inj (Option.some.inj hi)
        cases Option.some.inj (Option.some.inj hj)
        exact absurd ht (by decide)
      | 1, _, hi, _ => exact absurd hi (by simp [live, ex_table])
      | _, 1, _, hj => exact absurd hj (by simp [live, ex_table])
      | (n + 4), _, hi, _ => exact absurd hi (by simp [live, ex_table])
      | _, (n + 4), _, hj => exact absurd hj (by simp [live, ex_table]))
    (by decide) (by decide)


/-! ## The table: the claims -/

/-- The tuple of a record, field by field. -/
theorem tuple_eq_iff (c : connection) (src dst : Nat) (sport dport : Int) :
    tuple c = (src, sport, dst, dport) ↔
      (c.src = src ∧ c.dst = dst ∧ c.sport = sport ∧ c.dport = dport) := by
  simp only [tuple, Prod.mk.injEq]
  tauto

/-- When every slot is live `first_free` finds nothing. -/
theorem first_free_of_full (slots : Slots)
    (h : ∀ j, j < slots.length → ∃ c, slots[j]? = some (some c)) :
    first_free slots = none := by
  rcases hf : first_free slots with _ | i
  · rfl
  · obtain ⟨h1, -⟩ := first_free_some slots i hf
    have hlt : i < slots.length := (List.getElem?_eq_some.mp h1).1
    obtain ⟨c, hc⟩ := h i hlt
    rw [hc] at h1
    cases h1

/-- When some slot is empty `first_free` returns a slot. -/
theorem first_free_of_empty_slot (slots : Slots) (k : Nat) (hk : slots[k]? = some none) :
    ∃ i, first_free slots = some i := by
  rcases hf : first_free slots with _ | i
  · have hlt : k < slots.length := (List.getElem?_eq_some.mp hk).1
    obtain ⟨c, hc⟩ := first_free_none slots hf k hlt
    rw [hc] at hk
    cases hk
  · exact ⟨i, rfl⟩

/-- C12: on a table of capacity `n >= 1`, `alloc_connection` returns a slot
that is empty and leaves every live record where it is; if some slot was
empty the table is unchanged and the slot returned is the lowest-index empty
one; if all `n` slots were live the capacity becomes `2 * n`, slots
`0..n-1` are as before, slots `n..2n-1` are empty, and the slot returned is
`n`. -/
theorem C12_alloc_connection_post (slots : Slots) (hn : 1 ≤ slots.length) :
    (alloc_connection slots).1[(alloc_connection slots).2]? = some none
      ∧ (∀ j c, live (alloc_connection slots).1 j c ↔ live slots j c)
      ∧ ((∃ k : Nat, slots[k]? = some none) →
          (alloc_connection slots).1 = slots
            ∧ slots[(alloc_connection slots).2]? = some none
            ∧ ∀ j, j < (alloc_connection slots).2 → slots[j]? ≠ some none)
      ∧ ((∀ j, j < slots.length → ∃ c, slots[j]? = some (some c)) →
          (alloc_connection slots).1.length = 2 * slots.length
            ∧ (∀ j, j < slots.length → (alloc_connection slots).1[j]? = slots[j]?)
            ∧ (∀ j, slots.length ≤ j → j < 2 * slots.length →
                (alloc_connection slots).1[j]? = some none)
            ∧ (alloc_connection slots).2 = slots.length) := by
  refine ⟨alloc_connection_free slots (by omega), alloc_connection_live slots, ?_, ?_⟩
  · rintro ⟨k, hk⟩
    obtain ⟨i, hi⟩ := first_free_of_empty_slot slots k hk
    obtain ⟨h1, h2⟩ := first_free_some slots i hi
    have e : alloc_connection slots = (slots, i) := by simp [alloc_connection, hi]
    rw [e]
    refine ⟨rfl, h1, ?_⟩
    intro j hj hjn
    obtain ⟨c, hc⟩ := h2 j hj
    rw [hc] at hjn
    cases hjn
  · intro hfull
    have hf := first_free_of_full slots hfull
    have e : alloc_connection slots
        = (slots ++ List.replicate slots.length none, slots.length) := by
      simp [alloc_connection, hf]
    rw [e]
    refine ⟨by simp; omega, ?_, ?_, rfl⟩
    · intro j hj
      simp [List.getElem?_append, hj]
    · intro j h1 h2
      have h3 : ¬ j < slots.length := by omega
      have h4 : j - slots.length < slots.length := by omega
      simp only [List.getElem?_append, h3, if_false, List.getElem?_replicate, h4, if_true]

/-- C12 on a full table of two slots: the table grows to four slots, the two
records stay, and slot 2 is returned. -/
theorem C12_alloc_connection_post_witness :
    alloc_connection [some ex_flow, some ex_back]
        = ([some ex_flow, some ex_back, none, none], 2)
      ∧ (alloc_connection [some ex_flow, some ex_back]).1.length
          = 2 * [some ex_flow, some ex_back].length
      ∧ (alloc_connection [some ex_flow, some ex_back]).1[
          (alloc_connection [some ex_flow, some ex_back]).2]? = some none
      ∧ (alloc_connection ex_table).1 = ex_table
      ∧ (alloc_connection ex_table).2 = 1 :=
  have h := C12_alloc_connection_post [some ex_flow, some ex_back] (by decide)
  have h2 := C12_alloc_connection_post ex_table (by decide)
  ⟨by decide,
    (h.2.2.2 (by
      intro j hj
      match j, hj with
      | 0, _ => exact ⟨ex_flow, rfl⟩
      | 1, _ => exact ⟨ex_back, rfl⟩
      | (k + 2), hj => exact absurd hj (by simp))).1,
    h.1, (h2.2.2.1 ⟨1, by decide⟩).1, by decide⟩

/-- C13: `find_connection` returns a slot only if the slot is live and its
record has the `src`, `dst`, `sport` and `dport` asked for, and no live slot
before it has; it returns `NULL` if and only if no live record has them; and
a record stored for `(src, sport, dst, dport)` is returned for the swapped
query only when the two tuples are the same. -/
theorem C13_find_connection_exact (slots : Slots) (src dst : Nat) (sport dport : Int) :
    (∀ i c, find_connection src dst sport dport slots = some (i, c) →
        live slots i c ∧ c.src = src ∧ c.dst = dst ∧ c.sport = sport ∧ c.dport = dport
          ∧ ∀ j cj, j < i → live slots j cj →
              ¬ (cj.src = src ∧ cj.dst = dst ∧ cj.sport = sport ∧ cj.dport = dport))
      ∧ (find_connection src dst sport dport slots = none ↔
          ∀ j cj, live slots j cj →
            ¬ (cj.src = src ∧ cj.dst = dst ∧ cj.sport = sport ∧ cj.dport = dport))
      ∧ (∀ i c, find_connection dst src dport sport slots = some (i, c) →
          c.src = src → c.sport = sport → c.dst = dst → c.dport = dport →
          src = dst ∧ sport = dport) := by
  refine ⟨?_, ?_, ?_⟩
  · intro i c h
    obtain ⟨h1, h2, h3⟩ := find_connection_some src dst sport dport slots i c h
    refine ⟨h1, ((tuple_eq_iff c src dst sport dport).mp h2).1,
      ((tuple_eq_iff c src dst sport dport).mp h2).2.1,
      ((tuple_eq_iff c src dst sport dport).mp h2).2.2.1,
      ((tuple_eq_iff c src dst sport dport).mp h2).2.2.2, ?_⟩
    intro j cj hj hl hm
    exact h3 j cj hj hl ((tuple_eq_iff cj src dst sport dport).mpr hm)
  · constructor
    · intro h j cj hl hm
      exact find_connection_none src dst sport dport slots h j cj hl
        ((tuple_eq_iff cj src dst sport dport).mpr hm)
    · intro h
      rcases hf : find_connection src dst sport dport slots with _ | ⟨i, c⟩
      · rfl
      · obtain ⟨h1, h2, -⟩ := find_connection_some src dst sport dport slots i c hf
        exact absurd ((tuple_eq_iff c src dst sport dport).mp h2) (h i c h1)
  · intro i c h hs hsp hd hdp
    obtain ⟨-, h2, -⟩ := find_connection_some dst src dport sport slots i c h
    have h3 := (tuple_eq_iff c dst src dport sport).mp h2
    exact ⟨hs.symm.trans h3.1, hsp.symm.trans h3.2.2.1⟩


/-! ## Unknown datalink types -/

/-- Outside the supported list `get_link_level_hdr_length` returns `-1`. -/
theorem get_link_level_hdr_length_unknown (type : Int) (h : type ∉ supported_dlt) :
    get_link_level_hdr_length type = -1 := by
  simp only [supported_dlt, List.mem_cons, List.mem_singleton, List.not_mem_nil, or_false,
    not_or] at h
  obtain ⟨h1, h2, h3, h4, h5, h6, h7, h8, h9, h10, h11, h12, h13, h14, h15, h16, h17, h18⟩ := h
  simp [get_link_level_hdr_length, h1, h2, h3, h4, h5, h6, h7, h8, h9, h10, h11, h12, h13,
    h14, h15, h16, h17, h18]

/-- On the supported list `get_link_level_hdr_length` is not negative. -/
theorem get_link_level_hdr_length_supported (type : Int) (h : type ∈ supported_dlt) :
    0 ≤ get_link_level_hdr_length type := by
  simp only [supported_dlt, List.mem_cons, List.mem_singleton, List.not_mem_nil, or_false] at h
  rcases h with h | h | h | h | h | h | h | h | h | h | h | h | h | h | h | h | h | h <;>
    (rw [h]; decide)

/-- Outside the supported list `get_frame_link_level_hdr_length` returns
`-1`. -/
theorem get_frame_link_level_hdr_length_unknown (type : Int) (pkt : List Nat)
    (h : type ∉ supported_dlt) : get_frame_link_level_hdr_length type pkt = -1 := by
  have hr : type ≠ DLT_IEEE802_11_RADIO := by
    intro e
    apply h
    rw [e]
    decide
  simp only [get_frame_link_level_hdr_length, hr, if_false]
  exact get_link_level_hdr_length_unknown type h

/-- C16: for a datalink type outside the supported list
`get_link_level_hdr_length` returns `-1`, `get_frame_link_level_hdr_length`
passes the `-1` through, and `process_packet` returns at once: the table is
unchanged and no call is made, for one frame and for any sequence of frames
under that type. For every supported type the length is not negative; it is
14 for Ethernet and 0 for raw IP. -/
theorem C16_unknown_datalink (E : Collab) (type : Int) (h : type ∉ supported_dlt) :
    get_link_level_hdr_length type = -1
      ∧ (∀ pkt, get_frame_link_level_hdr_length type pkt = -1)
      ∧ (∀ caplen pkt t now slots,
          process_packet E type caplen pkt t now slots = (slots, []))
      ∧ (∀ (fs : List capture) (slots : Slots), (∀ f ∈ fs, f.dlt = type) →
          run E fs slots = slots)
      ∧ (∀ ty ∈ supported_dlt, 0 ≤ get_link_level_hdr_length ty)
      ∧ get_link_level_hdr_length DLT_EN10MB = 14
      ∧ get_link_level_hdr_length DLT_RAW = 0 := by
  have hpp : ∀ caplen pkt t now slots,
      process_packet E type caplen pkt t now slots = (slots, []) := by
    intro caplen pkt t now slots
    apply process_packet_of_no_segment
    simp [frame_segment, get_frame_link_level_hdr_length_unknown type pkt h]
  refine ⟨get_link_level_hdr_length_unknown type h,
    fun pkt => get_frame_link_level_hdr_length_unknown type pkt h, hpp, ?_,
    get_link_level_hdr_length_supported, by decide, by decide⟩
  intro fs
  induction fs with
  | nil => intro slots _; rfl
  | cons f fs ih =>
    intro slots hall
    have hf : f.dlt = type := hall f (List.mem_cons_self _ _)
    simp only [run, hf, hpp]
    exact ih slots (fun f2 h2 => hall f2 (List.mem_cons_of_mem _ h2))

/-- C16 at datalink type 147, on the sample table and three frames that
would otherwise store data, set FIN and reset the flow. -/
theorem C16_unknown_datalink_witness :
    get_link_level_hdr_length 147 = -1
      ∧ get_frame_link_level_hdr_length 147 ex_frame_next = -1
      ∧ process_packet refCollab 147 43 ex_frame_next 100 100 ex_table = (ex_table, [])
      ∧ run refCollab ex_captures_unknown ex_table = ex_table :=
  have h := C16_unknown_datalink refCollab 147 (by decide)
  ⟨h.1, h.2.1 ex_frame_next, h.2.2.1 43 ex_frame_next 100 100 ex_table,
    h.2.2.2.1 ex_captures_unknown ex_table (by decide)⟩


/-! ## Anchoring and data before the anchor -/

/-- When no live record has the tuple of the segment, `locate` allocates: the
record is the new one with `isn` set, written into the slot
`alloc_connection` returns. -/
theorem locate_of_none (t : Int) (g : segment) (slots : Slots)
    (h : find_connection g.s g.d g.sport g.dport slots = none) :
    locate t g slots =
      ((alloc_connection slots).1.set (alloc_connection slots).2
          (some { connection_new t g.s g.d g.sport g.dport with isn := g.seq }),
        (alloc_connection slots).2,
        { connection_new t g.s g.d g.sport g.dport with isn := g.seq }) := by
  simp [locate, h]

/-- C15: for a frame without RST, with payload, whose tuple has no live
record, `c` being the record `process_packet` works on: `c` is the new
record with `isn` equal to the sequence number of the frame, it is written
into the slot `alloc_connection` returns, the segment maps to offset 0 and
passes the acceptance test, and the calls made before the sweep are the push
of the payload at offset 0 followed by the extractor; no flag other than RST
is looked at, so this holds with or without SYN. -/
theorem C15_isn_anchoring (E : Collab) (dlt : Int) (caplen : Nat) (pkt : List Nat)
    (t : Int) (slots : Slots) (g : segment) (c : connection)
    (hg : frame_segment dlt caplen pkt = some g)
    (hc : (locate t g slots).2.2 = c)
    (hrst : has_flag g.flags TH_RST = false)
    (hpay : 0 < g.len)
    (hnone : ∀ j cj, live slots j cj → tuple cj ≠ (g.s, g.sport, g.d, g.dport)) :
    c = { connection_new t g.s g.d g.sport g.dport with isn := g.seq }
      ∧ c.isn = g.seq
      ∧ (locate t g slots).1 = (alloc_connection slots).1.set (alloc_connection slots).2 (some c)
      ∧ (1 ≤ slots.length → live (locate t g slots).1 (alloc_connection slots).2 c)
      ∧ segment_offset c.isn g.seq = 0
      ∧ out_of_order c (segment_offset c.isn g.seq) = false
      ∧ (process_packet_body E dlt caplen pkt t slots).2.1 =
          [Event.push c ((pkt.drop g.off).take g.len.toNat) 0 g.len.toNat,
           Event.extract (E.push t c ((pkt.drop g.off).take g.len.toNat) 0 g.len.toNat)] := by
  have hf : find_connection g.s g.d g.sport g.dport slots = none := by
    rcases hf : find_connection g.s g.d g.sport g.dport slots with _ | ⟨i, d⟩
    · rfl
    · obtain ⟨h1, h2, -⟩ := find_connection_some _ _ _ _ slots i d hf
      exact absurd h2 (hnone i d h1)
  have hloc := locate_of_none t g slots hf
  have e : c = { connection_new t g.s g.d g.sport g.dport with isn := g.seq } := by
    rw [← hc, hloc]
  have hisn : c.isn = g.seq := by rw [e]
  have hlen : c.len = 0 := by rw [e]; rfl
  have hoff : segment_offset c.isn g.seq = 0 := by
    rw [hisn]
    exact segment_offset_self g.seq (frame_segment_seq_lt dlt caplen pkt g hg)
  have hin : out_of_order c (segment_offset c.isn g.seq) = false := by
    rw [hoff]
    simp [out_of_order]
  refine ⟨e, hisn, ?_, ?_, hoff, hin, ?_⟩
  · rw [hloc, e]
  · intro hpos
    have h1 := locate_live t g slots (by omega)
    rw [hc] at h1
    rw [hloc] at h1 ⊢
    exact h1
  · rw [process_packet_body_of_segment E dlt caplen pkt t slots g hg,
      process_segment_no_rst E t g pkt slots hrst, hc,
      handle_payload_accept E t g pkt c hpay hin, hoff]

/-- C15 on the sample table and a frame of a flow it has no record of, with
PSH and ACK but no SYN: the record is created in the free slot 1 with
`isn = 7777` and the two payload bytes are pushed at offset 0. -/
theorem C15_isn_anchoring_witness :
    ex_new = { connection_new 100 ex_seg_new.s ex_seg_new.d ex_seg_new.sport ex_seg_new.dport
                with isn := ex_seg_new.seq }
      ∧ ex_new.isn = ex_seg_new.seq
      ∧ (locate 100 ex_seg_new ex_table).1
          = (alloc_connection ex_table).1.set (alloc_connection ex_table).2 (some ex_new)
      ∧ (1 ≤ ex_table.length →
          live (locate 100 ex_seg_new ex_table).1 (alloc_connection ex_table).2 ex_new)
      ∧ segment_offset ex_new.isn ex_seg_new.seq = 0
      ∧ out_of_order ex_new (segment_offset ex_new.isn ex_seg_new.seq) = false
      ∧ (process_packet_body refCollab DLT_RAW 42 ex_frame_new 100 ex_table).2.1 =
          [Event.push ex_new ((ex_frame_new.drop ex_seg_new.off).take ex_seg_new.len.toNat) 0
            ex_seg_new.len.toNat,
           Event.extract (refCollab.push 100 ex_new
            ((ex_frame_new.drop ex_seg_new.off).take ex_seg_new.len.toNat) 0
            ex_seg_new.len.toNat)] :=
  C15_isn_anchoring refCollab DLT_RAW 42 ex_frame_new 100 ex_table ex_seg_new ex_new
    (by decide) (by decide) (by decide) (by decide)
    (by
      intro j cj hj
      match j, hj with
      | 0, hj =>
        cases Option.some.inj (Option.some.inj hj)
        decide
      | 1, hj => exact absurd hj (by simp [live, ex_table])
      | 2, hj =>
        cases Option.some.inj (Option.some.inj hj)
        decide
      | 3, hj =>
        cases Option.some.inj (Option.some.inj hj)
        decide
      | (n + 4), hj => exact absurd hj (by simp [live, ex_table]))

/-- C17: for a frame without RST (whatever its payload length), `c` being the
record `process_packet` works on, with `c.len <= 8 MiB` and a 32-bit
`c.isn`, if the sequence number of the segment
precedes `c.isn` by `d` with `1 <= d <= 2^31` (`seq + d = isn`), then the
computed offset exceeds `c.len + WRAPLEN`, no call is made before the sweep,
and `connection_push` is not called at all: the segment is never stored. -/
theorem C17_before_anchor_dropped (E : Collab) (dlt : Int) (caplen : Nat) (pkt : List Nat)
    (t now : Int) (slots : Slots) (g : segment) (c : connection) (d : Nat)
    (hg : frame_segment dlt caplen pkt = some g)
    (hc : (locate t g slots).2.2 = c)
    (hrst : has_flag g.flags TH_RST = false)
    (hlen : c.len ≤ 8 * 1024 * 1024)
    (hisn : c.isn < 2 ^ 32)
    (hd1 : 1 ≤ d) (hd2 : d ≤ 2 ^ 31)
    (hseq : g.seq + d = c.isn) :
    c.len + WRAPLEN < segment_offset c.isn g.seq
      ∧ out_of_order c (segment_offset c.isn g.seq) = true
      ∧ (process_packet_body E dlt caplen pkt t slots).2.1 = []
      ∧ (∀ c2 data off n,
          Event.push c2 data off n ∉ (process_packet E dlt caplen pkt t now slots).2) := by
  have hoff : segment_offset c.isn g.seq = 4294967295 - (c.isn - g.seq) :=
    segment_offset_of_lt c.isn g.seq (by simpa [U32] using hisn) (by omega)
  have hfar : c.len + WRAPLEN < segment_offset c.isn g.seq := by
    rw [hoff]
    simp only [WRAPLEN]
    omega
  have hsum : c.len + WRAPLEN < U32 := by
    simp only [WRAPLEN, U32]
    omega
  have hooo : out_of_order c (segment_offset c.isn g.seq) = true :=
    (out_of_order_iff c _ hsum).mpr hfar
  refine ⟨hfar, hooo, ?_, ?_⟩
  · rw [process_packet_body_of_segment E dlt caplen pkt t slots g hg,
      process_segment_no_rst E t g pkt slots hrst, hc,
      handle_payload_reject E t g pkt c hooo]
  · intro c2 data off n hm
    rw [process_packet_no_rst E dlt caplen pkt t now slots g hg hrst, hc,
      handle_payload_reject E t g pkt c hooo] at hm
    exact absurd (by simpa using hm) (sweep_connections_no_push E now _ c2 data off n)

/-- C17 on the sample table and the frame of the sample flow whose sequence
number 999 is one before the anchor 1000: the offset is `2^32 - 2` and the
three payload bytes are not stored. -/
theorem C17_before_anchor_dropped_witness :
    ex_flow.len + WRAPLEN < segment_offset ex_flow.isn ex_seg_before.seq
      ∧ out_of_order ex_flow (segment_offset ex_flow.isn ex_seg_before.seq) = true
      ∧ (process_packet_body refCollab DLT_RAW 43 ex_frame_before 100 ex_table).2.1 = []
      ∧ (∀ c2 data off n,
          Event.push c2 data off n
            ∉ (process_packet refCollab DLT_RAW 43 ex_frame_before 100 100 ex_table).2) :=
  C17_before_anchor_dropped refCollab DLT_RAW 43 ex_frame_before 100 100 ex_table
    ex_seg_before ex_flow 1
    (by decide) (by decide) (by decide) (by decide) (by decide) (by decide) (by decide)
    (by decide)


/-! ## The extractor invocation policy -/

/-- The calls the sweep makes: for each live slot whose record passes the
test, in slot order, the extractor on the record and then the deletion. -/
theorem sweep_connections_snd (E : Collab) (now : Int) (slots : Slots) :
    (sweep_connections E now slots).2 =
      ((slots.filterMap id).filter (sweep_test now)).flatMap
        (fun d => [Event.extract d, Event.delete (E.extract d)]) := by
  induction slots with
  | nil => rfl
  | cons s rest ih =>
    cases s with
    | none => simpa [sweep_connections] using ih
    | some c =>
      by_cases h : sweep_test now c = true
      · simp [sweep_connections, h, ih, List.filter_cons]
      · simp [sweep_connections, h, ih, List.filter_cons]

/-- The number of extractor calls the sweep makes on a record value is the
number of slots holding it, if it passes the test, and zero if not. -/
theorem sweep_connections_count (E : Collab) (now : Int) (slots : Slots) (d : connection) :
    (sweep_connections E now slots).2.count (Event.extract d) =
      if sweep_test now d then slots.count (some d) else 0 := by
  induction slots with
  | nil => simp [sweep_connections]
  | cons s rest ih =>
    cases s with
    | none =>
      simp only [sweep_connections, ih]
      split <;> simp [List.count_cons]
    | some c =>
      by_cases h : sweep_test now c = true
      · simp only [sweep_connections, h, if_true, List.count_cons, ih]
        by_cases hcd : c = d
        · subst hcd
          simp [h]
        · have h1 : ¬ (Event.extract c = Event.extract d) := by
            intro e
            cases e
            exact hcd rfl
          split <;> simp [hcd, h1]
      · have hF : sweep_test now c = false := by simpa using h
        have e : (sweep_connections E now (some c :: rest)).2
            = (sweep_connections E now rest).2 := by
          simp [sweep_connections, hF]
        rw [e, ih]
        by_cases hcd : c = d
        · subst hcd
          simp [hF]
        · simp [List.count_cons, hcd]

/-- The RST branch calls only `connection_delete`. -/
theorem handle_rst_trace (g : segment) (slots : Slots) (i : Nat) (c : connection)
    (e : Event) (he : e ∈ (handle_rst g slots i c).2) : ∃ d, e = Event.delete d := by
  rcases hf : find_connection g.d g.s g.dport g.sport (slots.set i none) with _ | ⟨j, cj⟩
  · simp only [handle_rst, hf, List.mem_singleton] at he
    exact ⟨_, he⟩
  · simp only [handle_rst, hf, List.mem_cons, List.mem_singleton, List.not_mem_nil,
      or_false] at he
    rcases he with he | he
    · exact ⟨_, he⟩
    · exact ⟨_, he⟩

/-- C11: on a frame that spells a segment, `c` being the record
`process_packet` works on, the calls made before the sweep are: without RST
and with an accepted payload, `connection_push` followed by exactly one call
of the extractor, on the record as pushed; without RST and with no payload or
a rejected payload, none; with RST, only deletions. The calls of
`sweep_connections` are, for each slot it retires, in slot order, the
extractor on the record followed by the deletion; the extractor is called on
a record value as many times as there are retired slots holding it, and
never on a record the sweep keeps. -/
theorem C11_extractor_policy (E : Collab) (dlt : Int) (caplen : Nat) (pkt : List Nat)
    (t now : Int) (slots : Slots) (g : segment) (c : connection)
    (hg : frame_segment dlt caplen pkt = some g)
    (hc : (locate t g slots).2.2 = c) :
    (has_flag g.flags TH_RST = false → 0 < g.len →
        out_of_order c (segment_offset c.isn g.seq) = false →
        (process_packet_body E dlt caplen pkt t slots).2.1 =
          [Event.push c ((pkt.drop g.off).take g.len.toNat)
              (segment_offset c.isn g.seq) g.len.toNat,
           Event.extract (E.push t c ((pkt.drop g.off).take g.len.toNat)
              (segment_offset c.isn g.seq) g.len.toNat)])
      ∧ (has_flag g.flags TH_RST = false →
          (g.len ≤ 0 ∨ out_of_order c (segment_offset c.isn g.seq) = true) →
          (process_packet_body E dlt caplen pkt t slots).2.1 = [])
      ∧ (has_flag g.flags TH_RST = true →
          ∀ e ∈ (process_packet_body E dlt caplen pkt t slots).2.1, ∃ d, e = Event.delete d)
      ∧ (∀ slots2 : Slots, (sweep_connections E now slots2).2 =
          ((slots2.filterMap id).filter (sweep_test now)).flatMap
            (fun d => [Event.extract d, Event.delete (E.extract d)]))
      ∧ (∀ (slots2 : Slots) (d : connection),
          (sweep_connections E now slots2).2.count (Event.extract d) =
            if sweep_test now d then slots2.count (some d) else 0)
      ∧ (∀ (slots2 : Slots) (j : Nat) (d : connection),
          live (sweep_connections E now slots2).1 j d →
          Event.extract d ∉ (sweep_connections E now slots2).2) := by
  have hb := process_packet_body_of_segment E dlt caplen pkt t slots g hg
  refine ⟨?_, ?_, ?_, sweep_connections_snd E now, sweep_connections_count E now, ?_⟩
  · intro hrst hpay hin
    rw [hb, process_segment_no_rst E t g pkt slots hrst, hc,
      handle_payload_accept E t g pkt c hpay hin]
  · intro hrst hno
    rw [hb, process_segment_no_rst E t g pkt slots hrst, hc]
    rcases hno with hno | hno
    · have : ¬ 0 < g.len := by omega
      simp [handle_payload, this]
    · rw [handle_payload_reject E t g pkt c hno]
  · intro hrst e he
    rw [hb, process_segment_rst E t g pkt slots hrst] at he
    exact handle_rst_trace g _ _ _ e he
  · intro slots2 j d hl hm
    have h1 := ((live_sweep E now slots2 j d).mp hl).2
    obtain ⟨d2, -, h2, h3⟩ := sweep_connections_trace E now slots2 _ hm
    rcases h3 with h3 | h3
    · cases h3
      rw [h1] at h2
      cases h2
    · cases h3

/-- C11 on the sample table and the frame at offset 3 of the sample flow: one
push and one extractor call before the sweep. -/
theorem C11_extractor_policy_witness :
    (process_packet_body refCollab DLT_RAW 43 ex_frame_next 100 ex_table).2.1 =
        [Event.push ex_flow ((ex_frame_next.drop ex_seg_next.off).take ex_seg_next.len.toNat)
            (segment_offset ex_flow.isn ex_seg_next.seq) ex_seg_next.len.toNat,
         Event.extract (refCollab.push 100 ex_flow
            ((ex_frame_next.drop ex_seg_next.off).take ex_seg_next.len.toNat)
            (segment_offset ex_flow.isn ex_seg_next.seq) ex_seg_next.len.toNat)]
      ∧ (sweep_connections refCollab 106 ex_table).2.count (Event.extract ex_flow) = 1
      ∧ (sweep_connections refCollab 100 ex_table).2.count (Event.extract ex_flow) = 0 :=
  have h := C11_extractor_policy refCollab DLT_RAW 43 ex_frame_next 100 106 ex_table
    ex_seg_next ex_flow (by decide) (by decide)
  ⟨h.1 (by decide) (by decide) (by decide),
    (h.2.2.2.2.1 ex_table ex_flow).trans (by decide), by decide⟩


/-! ## Truncated frames -/

/-- The static link-level header length is at most 32. -/
theorem get_link_level_hdr_length_le (type : Int) : get_link_level_hdr_length type ≤ 32 := by
  by_cases h : type ∈ supported_dlt
  · simp only [supported_dlt, List.mem_cons, List.mem_singleton, List.not_mem_nil,
      or_false] at h
    rcases h with h | h | h | h | h | h | h | h | h | h | h | h | h | h | h | h | h | h <;>
      (rw [h]; decide)
  · rw [get_link_level_hdr_length_unknown type h]
    decide

/-- The link-level header length of a frame is at most `65535 + 2 + 32`. -/
theorem get_frame_link_level_hdr_length_le (type : Int) (pkt : List Nat) :
    get_frame_link_level_hdr_length type pkt ≤ 65569 := by
  unfold get_frame_link_level_hdr_length
  split
  · have h0 := byte_at_lt pkt 2
    have h1 := byte_at_lt pkt (2 + 1)
    have h2 : get_link_level_hdr_length DLT_IEEE802_11 = 32 := by decide
    rw [h2]
    simp only [host16]
    omega
  · have := get_link_level_hdr_length_le type
    omega

/-- The payload offset read from the headers is at most 120 bytes past the
link-level header. -/
theorem parse_headers_off_le (o caplen : Nat) (pkt : List Nat) :
    (parse_headers o caplen pkt).off ≤ o + 120 := by
  have h0 := byte_at_lt pkt o
  have h1 := byte_at_lt pkt (o + byte_at pkt o % 16 * 4 + 12)
  simp only [parse_headers]
  omega

/-- The payload length of a frame captured short of its payload offset is
negative. -/
theorem frame_segment_len_neg (dlt : Int) (caplen : Nat) (pkt : List Nat) (g : segment)
    (hg : frame_segment dlt caplen pkt = some g) (htrunc : caplen < g.off) : g.len < 0 := by
  obtain ⟨h1, h2⟩ := frame_segment_some dlt caplen pkt g hg
  have h3 := get_frame_link_level_hdr_length_le dlt pkt
  have h4 := parse_headers_off_le (get_frame_link_level_hdr_length dlt pkt).toNat caplen pkt
  rw [← h2] at h4
  have h5 : g.len = to_int (usub caplen g.off) := by rw [h2]; rfl
  have h6 : g.off < 2147483648 := by omega
  rw [h5]
  simp only [to_int, usub, U32]
  have e1 : caplen % 2 ^ 32 = caplen := Nat.mod_eq_of_lt (by omega)
  have e2 : g.off % 2 ^ 32 = g.off := Nat.mod_eq_of_lt (by omega)
  rw [e1, e2]
  have e3 : (caplen + 2 ^ 32 - g.off) % 2 ^ 32 = caplen + 2 ^ 32 - g.off :=
    Nat.mod_eq_of_lt (by omega)
  rw [e3, Nat.mod_eq_of_lt (by omega)]
  split
  · omega
  · omega

/-- A live slot that `locate` returns holds the record `locate` returns. -/
theorem locate_at_live (t : Int) (g : segment) (slots : Slots) (j : Nat) (cj : connection)
    (hl : live slots j cj) (hj : (locate t g slots).2.1 = j) :
    (locate t g slots).2.2 = cj ∧ (locate t g slots).1 = slots := by
  have ht : tuple cj = (g.s, g.sport, g.d, g.dport) := by
    by_contra hne
    exact locate_idx_ne t g slots j cj hl hne hj.symm
  obtain ⟨⟨i, c⟩, hf⟩ := find_connection_isSome g.s g.d g.sport g.dport slots j cj hl ht
  have e := locate_of_find t g slots i c hf
  rw [e] at hj ⊢
  simp only at hj
  subst hj
  have h1 := (find_connection_some _ _ _ _ slots i c hf).1
  have : some (some c) = some (some cj) := h1.symm.trans hl
  simp only [Option.some.injEq] at this
  exact ⟨this, rfl⟩

/-- C14 (counterexample): a frame of which 40 bytes are captured, 20 of IP
header and 20 of a TCP header that is 60 bytes long by its data-offset field,
so that the captured length is below the link-level, IP and TCP header
lengths together (`0 + 20 + 60`), makes `process_packet` create a record in
an empty table; and such a frame with FIN set, on a table holding a record of
its flow, sets `fin` of that record. -/
theorem C14_counterexample :
    ex_frame_cut.length = 40
      ∧ frame_segment DLT_RAW 40 ex_frame_cut = some ex_seg_cut
      ∧ get_frame_link_level_hdr_length DLT_RAW ex_frame_cut = 0
      ∧ ex_seg_cut.off = 0 + 20 + 60
      ∧ 40 < ex_seg_cut.off
      ∧ process_packet refCollab DLT_RAW 40 ex_frame_cut 100 100 [none] = ([some ex_new], [])
      ∧ frame_segment DLT_RAW 40 ex_frame_cut_fin = some ex_seg_cut_fin
      ∧ 40 < ex_seg_cut_fin.off
      ∧ live ex_table 0 ex_flow
      ∧ ex_flow.fin = false
      ∧ ex_flow_fin.fin = true
      ∧ (process_packet_body refCollab DLT_RAW 40 ex_frame_cut_fin 100 ex_table).1
          = ex_table.set 0 (some ex_flow_fin) := by
  decide

/-- C14 (amended): for a frame whose captured length is smaller than the
payload offset read from it (link-level header length plus the IP and TCP
header lengths its headers give), `c` being the record `process_packet` works
on and `i` its slot: the payload length is negative and before the sweep
neither `connection_push` nor the extractor is called (only deletions, on
RST); without RST no call is made at all, the table before the sweep is the
table after lookup-or-allocate with at most `fin` of `c` set, and every
record that was in the table is still in its slot with the same `isn`,
`len`, `blocks`, `last` and tuple, unchanged altogether in every slot other
than `i`. -/
theorem C14_truncated_frames (E : Collab) (dlt : Int) (caplen : Nat) (pkt : List Nat)
    (t : Int) (slots : Slots) (g : segment) (i : Nat) (c : connection)
    (hg : frame_segment dlt caplen pkt = some g)
    (hi : (locate t g slots).2.1 = i)
    (hc : (locate t g slots).2.2 = c)
    (htrunc : caplen < g.off) :
    g.len < 0
      ∧ (∀ e ∈ (process_packet_body E dlt caplen pkt t slots).2.1, ∃ d, e = Event.delete d)
      ∧ (has_flag g.flags TH_RST = false →
          (process_packet_body E dlt caplen pkt t slots).2.1 = []
            ∧ (process_packet_body E dlt caplen pkt t slots).1
                = (locate t g slots).1.set i
                    (some { c with fin := c.fin || has_flag g.flags TH_FIN })
            ∧ ∀ j cj, live slots j cj →
                ∃ cj2, live (process_packet_body E dlt caplen pkt t slots).1 j cj2
                  ∧ cj2.isn = cj.isn ∧ cj2.len = cj.len ∧ cj2.blocks = cj.blocks
                  ∧ cj2.last = cj.last ∧ tuple cj2 = tuple cj
                  ∧ (j ≠ i → cj2 = cj)) := by
  have hneg := frame_segment_len_neg dlt caplen pkt g hg htrunc
  have hb := process_packet_body_of_segment E dlt caplen pkt t slots g hg
  have hpay : handle_payload E t g pkt c = (c, []) := by
    have : ¬ 0 < g.len := by omega
    simp [handle_payload, this]
  have hnorst : has_flag g.flags TH_RST = false →
      process_packet_body E dlt caplen pkt t slots =
        ((locate t g slots).1.set i (some { c with fin := c.fin || has_flag g.flags TH_FIN }),
          [], true) := by
    intro hrst
    rw [hb, process_segment_no_rst E t g pkt slots hrst, hi, hc, hpay, handle_fin_eq]
  refine ⟨hneg, ?_, ?_⟩
  · intro e he
    rcases hrst : has_flag g.flags TH_RST with _ | _
    · rw [hnorst hrst] at he
      simp at he
    · rw [hb, process_segment_rst E t g pkt slots hrst] at he
      exact handle_rst_trace g _ _ _ e he
  · intro hrst
    rw [hnorst hrst]
    refine ⟨rfl, rfl, ?_⟩
    intro j cj hl
    by_cases hji : j = i
    · subst hji
      obtain ⟨h1, h2⟩ := locate_at_live t g slots j cj hl hi
      rw [hc] at h1
      subst h1
      rw [h2]
      refine ⟨{ c with fin := c.fin || has_flag g.flags TH_FIN }, ?_, rfl, rfl, rfl, rfl, rfl,
        fun h => absurd rfl h⟩
      have hlt : j < slots.length := (List.getElem?_eq_some.mp hl).1
      simp [live, List.getElem?_set, hlt]
    · refine ⟨cj, ?_, rfl, rfl, rfl, rfl, rfl, fun _ => rfl⟩
      rw [live_set_ne _ _ _ _ _ hji]
      exact (locate_others t g slots j cj (by rw [hi]; exact hji)).mpr hl

/-- C14 (amended) on the sample table and the truncated FIN frame of the
sample flow: no call before the sweep, and only `fin` of the record in
slot 0 changes. -/
theorem C14_truncated_frames_witness :
    ex_seg_cut_fin.len < 0
      ∧ (∀ e ∈ (process_packet_body refCollab DLT_RAW 40 ex_frame_cut_fin 100 ex_table).2.1,
          ∃ d, e = Event.delete d)
      ∧ (has_flag ex_seg_cut_fin.flags TH_RST = false →
          (process_packet_body refCollab DLT_RAW 40 ex_frame_cut_fin 100 ex_table).2.1 = []
            ∧ (process_packet_body refCollab DLT_RAW 40 ex_frame_cut_fin 100 ex_table).1
                = (locate 100 ex_seg_cut_fin ex_table).1.set 0
                    (some { ex_flow with
                      fin := ex_flow.fin || has_flag ex_seg_cut_fin.flags TH_FIN })
            ∧ ∀ j cj, live ex_table j cj →
                ∃ cj2, live
                    (process_packet_body refCollab DLT_RAW 40 ex_frame_cut_fin 100 ex_table).1
                    j cj2
                  ∧ cj2.isn = cj.isn ∧ cj2.len = cj.len ∧ cj2.blocks = cj.blocks
                  ∧ cj2.last = cj.last ∧ tuple cj2 = tuple cj
                  ∧ (j ≠ 0 → cj2 = cj)) :=
  C14_truncated_frames refCollab DLT_RAW 40 ex_frame_cut_fin 100 ex_table ex_seg_cut_fin 0
    ex_flow (by decide) (by decide) (by decide) (by decide)


/-- C13 on the sample table: the query of the sample flow returns slot 0, the
swapped query returns the reverse record in slot 2 and not the record of
slot 0, and a query no record matches returns `NULL`. -/
theorem C13_find_connection_exact_witness :
    find_connection 0x0a000001 0x0a000002 (-25536) 80 ex_table = some (0, ex_flow)
      ∧ (live ex_table 0 ex_flow ∧ ex_flow.src = 0x0a000001 ∧ ex_flow.dst = 0x0a000002
          ∧ ex_flow.sport = -25536 ∧ ex_flow.dport = 80)
      ∧ find_connection 0x0a000002 0x0a000001 80 (-25536) ex_table = some (2, ex_back)
      ∧ find_connection 0x0a000001 0x0a000002 80 (-25536) ex_table = none :=
  have h := (C13_find_connection_exact ex_table 0x0a000001 0x0a000002 (-25536) 80).1
    0 ex_flow (by decide)
  ⟨by decide, ⟨h.1, h.2.1, h.2.2.1, h.2.2.2.1, h.2.2.2.2.1⟩, by decide, by decide⟩

end Driftnet
